import Mathlib

namespace Adsb

/-!
Verification of the `adsb-core` Rust crate (Mode S / ADS-B decoding pipeline).

This file is a shallow embedding of the crate's data model and operations:

* Strings are modelled as lists of bytes (`List ℕ`), exactly as the Rust code
  itself operates on `&[u8]` (`hex.as_bytes()`, `hex_digit(c: u8)`, ...).
* `u8`/`u32`/`u64` arithmetic is modelled on `ℕ` with the masks written by the
  source (`&&& 0xFFFFFF`, ...); `i32` values that may be negative become `ℤ`.
* `f64` timestamps are modelled as `ℚ` (they are only compared and
  subtracted); `f64` geometry (latitudes, longitudes, speeds, headings and the
  transcendental functions of `cpr.rs`) is modelled as `ℝ`.
* `HashMap`s are modelled as association lists (where the length of the map is
  observable, e.g. `IcaoCache`) or as functions to `Option` (the per-aircraft
  map of the tracker, where only lookups and pointwise updates matter).

Each definition is translated from the named Rust source item.
-/

/-! ### Byte-string helpers (`types.rs`)

Rust `str::trim` removes Unicode whitespace; on the ASCII byte strings handled
here these are the bytes 9, 10, 13, 32.  `str::to_uppercase` on ASCII maps
`a..z` to `A..Z`. -/

/-- ASCII whitespace test, the byte-level content of `str::trim`. -/
def isWsB (b : ℕ) : Bool := b == 9 || b == 10 || b == 13 || b == 32

/-- `str::trim` on an ASCII byte string. -/
def trimBytes (s : List ℕ) : List ℕ :=
  ((s.dropWhile isWsB).reverse.dropWhile isWsB).reverse

/-- `str::to_uppercase` on one ASCII byte. -/
def toUpperByte (b : ℕ) : ℕ := if 97 ≤ b ∧ b ≤ 122 then b - 32 else b

/-- `str::to_uppercase` on an ASCII byte string. -/
def toUpperBytes (s : List ℕ) : List ℕ := s.map toUpperByte

/-- `types.rs::hex_digit`: value of one hex digit byte. -/
def hexDigit (b : ℕ) : Option ℕ :=
  if 48 ≤ b ∧ b ≤ 57 then some (b - 48)          -- b'0'..=b'9'
  else if 97 ≤ b ∧ b ≤ 102 then some (b - 97 + 10) -- b'a'..=b'f'
  else if 65 ≤ b ∧ b ≤ 70 then some (b - 65 + 10)  -- b'A'..=b'F'
  else none

/-- The chunk loop of `types.rs::hex_decode`: decode two bytes at a time,
assembling `(high << 4) | low`. -/
def hexPairs : List ℕ → Option (List ℕ)
  | [] => some []
  | [_] => none
  | c1 :: c2 :: rest =>
    match hexDigit c1, hexDigit c2, hexPairs rest with
    | some hi, some lo, some bs => some (((hi <<< 4) ||| lo) :: bs)
    | _, _, _ => none

/-- `types.rs::hex_decode`: trim, require even length, decode pairs. -/
def hexDecode (s : List ℕ) : Option (List ℕ) :=
  let t := trimBytes s
  if t.length % 2 = 0 then hexPairs t else none

/-- `types.rs::HEX_CHARS = b"0123456789ABCDEF"`. -/
def HEX_CHARS : List ℕ := [48, 49, 50, 51, 52, 53, 54, 55, 56, 57, 65, 66, 67, 68, 69, 70]

/-- `types.rs::hex_encode`: per byte, push `HEX_CHARS[b >> 4]` and
`HEX_CHARS[b & 0x0F]`. -/
def hexEncode (bs : List ℕ) : List ℕ :=
  bs.flatMap fun b => [HEX_CHARS.getD (b >>> 4) 48, HEX_CHARS.getD (b &&& 15) 48]

/-! ### CRC-24 (`crc.rs`) -/

/-- One bit-round of `crc.rs::build_crc_table`'s inner loop. -/
def crcStep (crc : ℕ) : ℕ :=
  if crc &&& 0x800000 ≠ 0 then ((crc <<< 1) ^^^ 0xFFF409) &&& 0xFFFFFF
  else (crc <<< 1) &&& 0xFFFFFF

/-- `crc.rs::CRC_TABLE[i]` (the `const fn build_crc_table` entry: eight rounds
on `i << 16`; callers always index with a value already masked to 8 bits). -/
def crcTable (i : ℕ) : ℕ := crcStep^[8] (i <<< 16)

/-- The polynomial-division fold shared by `crc24` and `crc24_raw`. -/
def crc24Fold (data : List ℕ) : ℕ :=
  data.foldl
    (fun crc byte => ((crc <<< 8) ^^^ crcTable (((crc >>> 16) ^^^ byte) &&& 0xFF)) &&& 0xFFFFFF)
    0

/-- `crc.rs::crc24`: divide the first `n-3` bytes, then XOR the trailing
3-byte PI field. -/
def crc24 (data : List ℕ) : ℕ :=
  if data.length ≤ 3 then
    (data.foldl (fun v b => (v <<< 8) ||| b) 0) &&& 0xFFFFFF
  else
    let payloadLen := data.length - 3
    let crc := crc24Fold (data.take payloadLen)
    crc ^^^ (((data.getD payloadLen 0) <<< 16) |||
      ((data.getD (payloadLen + 1) 0) <<< 8) ||| data.getD (payloadLen + 2) 0)

/-- Flip one bit: `fixed[bit / 8] ^= 1 << (7 - (bit % 8))`. -/
def flipBit (d : List ℕ) (bit : ℕ) : List ℕ :=
  d.set (bit / 8) ((d.getD (bit / 8) 0) ^^^ (1 <<< (7 - bit % 8)))

/-- Flip a list of bit positions (the loop in `crc.rs::try_fix` and the
message construction in `build_syndrome_table`). -/
def flipBits (d : List ℕ) (bits : List ℕ) : List ℕ := bits.foldl flipBit d

/-- The candidate bit lists of `crc.rs::build_syndrome_table`, in insertion
order: all single bits, then all ordered pairs. -/
def syndromeCandidates (nBits : ℕ) : List (List ℕ) :=
  (List.range nBits).map (fun b => [b]) ++
    (List.range nBits).flatMap
      (fun b1 => ((List.range nBits).drop (b1 + 1)).map (fun b2 => [b1, b2]))

/-- Lookup in the syndrome table.  `HashMap::entry(..).or_insert_with` keeps
the first candidate inserted for a syndrome, so the table lookup is the first
candidate (in insertion order) whose flipped-zero-message CRC equals the
syndrome. -/
def syndromeLookup (nBits syndrome : ℕ) : Option (List ℕ) :=
  (syndromeCandidates nBits).find?
    (fun bits => crc24 (flipBits (List.replicate (nBits / 8) 0) bits) == syndrome)

/-- `crc.rs::try_fix`. -/
def tryFix (msgHex : List ℕ) : Option (List ℕ) :=
  match hexDecode msgHex with
  | none => none
  | some data =>
    let nBits := data.length * 8
    let syndrome := crc24 data
    if syndrome = 0 then some (toUpperBytes msgHex)
    else
      match syndromeLookup (if nBits = 112 then 112 else 56) syndrome with
      | none => none
      | some bitPositions =>
        if bitPositions.any (fun b => b < 5) then none
        else
          let fixed := flipBits data bitPositions
          if crc24 fixed ≠ 0 then none
          else some (hexEncode fixed)

/-! ### Frames and the ICAO cache (`frame.rs`, `types.rs`) -/

/-- `types.rs::Icao = [u8; 3]`. -/
def Icao : Type := ℕ × ℕ × ℕ

instance : DecidableEq Icao := instDecidableEqProd
instance : BEq Icao := ⟨fun a b => decide (a = b)⟩

/-- `types.rs::df_info`, restricted to the `bits` field (the `name` field is
display-only metadata). -/
def dfInfoBits (df : ℕ) : Option ℕ :=
  ([(0, 56), (4, 56), (5, 56), (11, 56), (16, 112), (17, 112), (18, 112),
    (20, 112), (21, 112)].find? (fun p => p.1 == df)).map (·.2)

/-- `HashMap::get` on an association list. -/
def alGet (l : List (Icao × ℚ)) (k : Icao) : Option ℚ :=
  (l.find? (fun p => p.1 == k)).map (·.2)

/-- `HashMap::remove` on an association list. -/
def alRemove (l : List (Icao × ℚ)) (k : Icao) : List (Icao × ℚ) :=
  l.eraseP (fun p => p.1 == k)

/-- `HashMap::insert` on an association list (replace the key's value, or
append a new entry). -/
def alInsert (l : List (Icao × ℚ)) (k : Icao) (v : ℚ) : List (Icao × ℚ) :=
  if (l.find? (fun p => p.1 == k)).isSome then
    l.map (fun p => if p.1 == k then (k, v) else p)
  else l ++ [(k, v)]

/-- `frame.rs::IcaoCache`. -/
structure IcaoCache where
  ttl : ℚ
  cache : List (Icao × ℚ)

/-- `IcaoCache::register`. -/
def IcaoCache.register (c : IcaoCache) (icao : Icao) (timestamp : ℚ) : IcaoCache :=
  { c with cache := alInsert c.cache icao timestamp }

/-- `IcaoCache::is_known` — a mutating lookup; the mutated cache is returned
alongside the result. -/
def IcaoCache.isKnown (c : IcaoCache) (icao : Icao) (timestamp : ℚ) :
    Bool × IcaoCache :=
  match alGet c.cache icao with
  | some lastSeen =>
    if timestamp - lastSeen ≤ c.ttl then (true, c)
    else (false, { c with cache := alRemove c.cache icao })
  | none => (false, c)

/-- `IcaoCache::len`. -/
def IcaoCache.len (c : IcaoCache) : ℕ := c.cache.length

/-- `frame.rs::ModeFrame`. -/
structure ModeFrame where
  df : ℕ
  icao : Icao
  raw : List ℕ
  timestamp : ℚ
  signalLevel : Option ℚ
  msgBits : ℕ
  crcOk : Bool
  corrected : Bool

/-- `ModeFrame::is_long`. -/
def ModeFrame.isLong (f : ModeFrame) : Bool := f.msgBits == 112

/-- `ModeFrame::me`: bytes 4–10 for long frames, else empty. -/
def ModeFrame.me (f : ModeFrame) : List ℕ :=
  if f.isLong ∧ f.raw.length ≥ 11 then (f.raw.drop 4).take 7 else []

/-- `ModeFrame::type_code`. -/
def ModeFrame.typeCode (f : ModeFrame) : Option ℕ :=
  if (f.df ≠ 17 ∧ f.df ≠ 18) ∨ ¬f.isLong then none
  else if f.raw.length < 5 then none
  else some ((f.raw.getD 4 0 >>> 3) &&& 0x1F)

/-- The DF17/18 error-correction block of `frame.rs::parse_frame` (the
`if !crc_ok && (df == 17 || df == 18)` body, lines 186–198): returns the
(possibly fixed) bytes together with `(crc_ok, corrected)`. -/
def correctionStep (df : ℕ) (raw : List ℕ) (t : List ℕ) (crcRemainder : ℕ) :
    List ℕ × Bool × Bool :=
  if crcRemainder = 0 then (raw, true, false)
  else if df = 17 ∨ df = 18 then
    match tryFix (toUpperBytes t) with
    | some fixedHex =>
      match hexDecode fixedHex with
      | some fixedRaw => (fixedRaw, true, true)
      | none => (raw, false, false)
    | none => (raw, false, false)
  else (raw, false, false)

/-- `frame.rs::parse_frame`.  The `&mut IcaoCache` argument becomes an
explicit state: the function returns the updated cache next to its result. -/
def parseFrame (hexStr : List ℕ) (timestamp : ℚ) (signalLevel : Option ℚ)
    (validateIcao : Bool) (icaoCache : IcaoCache) : Option ModeFrame × IcaoCache :=
  let t := trimBytes hexStr
  if t.length ≠ 14 ∧ t.length ≠ 28 then (none, icaoCache)
  else
    match hexDecode t with
    | none => (none, icaoCache)
    | some raw =>
      let msgBits := raw.length * 8
      let df := (raw.getD 0 0 >>> 3) &&& 0x1F
      match dfInfoBits df with
      | none => (none, icaoCache)
      | some bits =>
        if msgBits ≠ bits then (none, icaoCache)
        else
          let crcRemainder := crc24 raw
          if [11, 17, 18].contains df then
            -- DF_EXPLICIT_ICAO branch
            let rcc := correctionStep df raw t crcRemainder
            let icao : Icao := (rcc.1.getD 1 0, rcc.1.getD 2 0, rcc.1.getD 3 0)
            let cache' := if rcc.2.1 ∧ validateIcao then
                icaoCache.register icao timestamp
              else icaoCache
            (some { df := df, icao := icao, raw := rcc.1, timestamp := timestamp,
                    signalLevel := signalLevel, msgBits := msgBits, crcOk := rcc.2.1,
                    corrected := rcc.2.2 }, cache')
          else if [0, 4, 5, 16, 20, 21].contains df then
            -- DF_RESIDUAL_ICAO branch
            let icao : Icao := ((crcRemainder >>> 16) &&& 0xFF,
              (crcRemainder >>> 8) &&& 0xFF, crcRemainder &&& 0xFF)
            if validateIcao then
              let (known, cache') := icaoCache.isKnown icao timestamp
              if known then
                (some { df := df, icao := icao, raw := raw, timestamp := timestamp,
                        signalLevel := signalLevel, msgBits := msgBits, crcOk := true,
                        corrected := false }, cache')
              else (none, cache')
            else
              (some { df := df, icao := icao, raw := raw, timestamp := timestamp,
                      signalLevel := signalLevel, msgBits := msgBits, crcOk := true,
                      corrected := false }, icaoCache)
          else (none, icaoCache)

/-- `frame.rs::parse_frame_uncached`. -/
def parseFrameUncached (hexStr : List ℕ) (timestamp : ℚ)
    (signalLevel : Option ℚ) : Option ModeFrame :=
  (parseFrame hexStr timestamp signalLevel false ⟨60, []⟩).1

/-! #### Concrete test frames (the crate's own CRC test vectors) -/

/-- ASCII bytes of `"8D4840D6202CC371C32CE0576098"` (a valid DF17 frame). -/
def validDf17Hex : List ℕ :=
  [56, 68, 52, 56, 52, 48, 68, 54, 50, 48, 50, 67, 67, 51, 55, 49, 67, 51,
   50, 67, 69, 48, 53, 55, 54, 48, 57, 56]

/-- The same frame with byte 5 bit 0 (message bit 47) flipped:
`"8D4840D6202DC371C32CE0576098"`. -/
def corrupt17Hex : List ℕ :=
  [56, 68, 52, 56, 52, 48, 68, 54, 50, 48, 50, 68, 67, 51, 55, 49, 67, 51,
   50, 67, 69, 48, 53, 55, 54, 48, 57, 56]

/-- Decoded bytes of `validDf17Hex`. -/
def valid17Bytes : List ℕ :=
  [141, 72, 64, 214, 32, 44, 195, 113, 195, 44, 224, 87, 96, 152]

/-- Decoded bytes of `corrupt17Hex`. -/
def corrupt17Bytes : List ℕ :=
  [141, 72, 64, 214, 32, 45, 195, 113, 195, 44, 224, 87, 96, 152]

/-- ASCII bytes of `"5D4840D6F8740F"`, a DF11 all-call reply with a valid
CRC (PI bytes computed from the first four bytes). -/
def validDf11Hex : List ℕ := [53, 68, 52, 56, 52, 48, 68, 54, 70, 56, 55, 52, 48, 70]

/-- The same DF11 frame with byte 5 bit 0 (message bit 47) flipped:
`"5D4840D6F8750F"`. -/
def corrupt11Hex : List ℕ := [53, 68, 52, 56, 52, 48, 68, 54, 70, 56, 55, 53, 48, 70]

/-- Decoded bytes of `corrupt11Hex`. -/
def corrupt11Bytes : List ℕ := [93, 72, 64, 214, 248, 117, 15]

/-! ### Message decoding (`decode.rs`, `types.rs`) -/

/-- Rounding of `f64::round`: half away from zero. -/
noncomputable def roundHalfAway (x : ℝ) : ℤ :=
  if 0 ≤ x then ⌊x + 1 / 2⌋ else -⌊-x + 1 / 2⌋

/-- `decode.rs::round2`. -/
noncomputable def round2 (x : ℝ) : ℝ := (roundHalfAway (x * 100) : ℝ) / 100

/-- `f64::atan2` (self = y, other = x), on the real-number model (signed
zeros do not exist in `ℝ`; `atan2 0 0 = 0` as in Rust). -/
noncomputable def atan2 (y x : ℝ) : ℝ :=
  if 0 < x then Real.arctan (y / x)
  else if x < 0 then
    (if 0 ≤ y then Real.arctan (y / x) + Real.pi else Real.arctan (y / x) - Real.pi)
  else if 0 < y then Real.pi / 2
  else if y < 0 then -(Real.pi / 2)
  else 0

/-- `f64::to_degrees`. -/
noncomputable def toDegrees (x : ℝ) : ℝ := x * (180 / Real.pi)

/-- `f64::rem_euclid` for a positive modulus (also `cpr.rs::modulo`). -/
noncomputable def modulo (x y : ℝ) : ℝ := x - y * ⌊x / y⌋

/-- Big-endian byte assembly (`u64::from_be_bytes` with a leading zero
byte: the fold of at most seven message bytes). -/
def beBytes (l : List ℕ) : ℕ := l.foldl (fun a b => a * 256 + b) 0

/-- `types.rs::CALLSIGN_CHARSET =
b"#ABCDEFGHIJKLMNOPQRSTUVWXYZ##### ###############0123456789######"`. -/
def CALLSIGN_CHARSET : List ℕ :=
  [35, 65, 66, 67, 68, 69, 70, 71, 72, 73, 74, 75, 76, 77, 78, 79, 80, 81,
   82, 83, 84, 85, 86, 87, 88, 89, 90, 35, 35, 35, 35, 35, 32, 35, 35, 35,
   35, 35, 35, 35, 35, 35, 35, 35, 35, 35, 35, 35, 48, 49, 50, 51, 52, 53,
   54, 55, 56, 57, 35, 35, 35, 35, 35, 35]

/-- `types.rs::IdentificationMsg` (callsign as ASCII bytes). -/
structure IdentificationMsg where
  icao : Icao
  callsign : List ℕ
  category : ℕ
  timestamp : ℚ

/-- `types.rs::PositionMsg`. -/
structure PositionMsg where
  icao : Icao
  altitudeFt : Option ℤ
  cprLat : ℕ
  cprLon : ℕ
  cprOdd : Bool
  surveillanceStatus : ℕ
  timestamp : ℚ
  isSurface : Bool

/-- `types.rs::SpeedType`. -/
inductive SpeedType where
  | ground
  | ias
  | tas
deriving DecidableEq

/-- `types.rs::VelocityMsg` (`f64` speed/heading as `ℝ`). -/
structure VelocityMsg where
  icao : Icao
  speedKts : Option ℝ
  headingDeg : Option ℝ
  verticalRateFpm : Option ℤ
  speedType : SpeedType
  timestamp : ℚ

/-- `types.rs::AltitudeMsg`. -/
structure AltitudeMsg where
  icao : Icao
  altitudeFt : Option ℤ
  timestamp : ℚ

/-- `types.rs::SquawkMsg` (squawk as ASCII digits). -/
structure SquawkMsg where
  icao : Icao
  squawk : List ℕ
  timestamp : ℚ

/-- `types.rs::DecodedMsg`. -/
inductive DecodedMsg where
  | identification (m : IdentificationMsg)
  | position (m : PositionMsg)
  | velocity (m : VelocityMsg)
  | altitude (m : AltitudeMsg)
  | squawk (m : SquawkMsg)

/-- `DecodedMsg::icao`. -/
def DecodedMsg.icao : DecodedMsg → Icao
  | .identification m => m.icao
  | .position m => m.icao
  | .velocity m => m.icao
  | .altitude m => m.icao
  | .squawk m => m.icao

/-- `DecodedMsg::timestamp`. -/
def DecodedMsg.timestamp : DecodedMsg → ℚ
  | .identification m => m.timestamp
  | .position m => m.timestamp
  | .velocity m => m.timestamp
  | .altitude m => m.timestamp
  | .squawk m => m.timestamp

/-- `decode.rs::decode_gillham_altitude`. -/
def decodeGillhamAltitude (altCode : ℕ) : Option ℤ :=
  let c1 := (altCode >>> 12) &&& 1
  let a1 := (altCode >>> 11) &&& 1
  let c2 := (altCode >>> 10) &&& 1
  let a2 := (altCode >>> 9) &&& 1
  let c4 := (altCode >>> 8) &&& 1
  let a4 := (altCode >>> 7) &&& 1
  let b1 := (altCode >>> 5) &&& 1
  let b2 := (altCode >>> 3) &&& 1
  let d2 := (altCode >>> 2) &&& 1
  let b4 := (altCode >>> 1) &&& 1
  let d4 := altCode &&& 1
  let cDigit := c4 * 4 + c2 * 2 + c1
  let cBin0 := cDigit ^^^ (cDigit >>> 2)
  let cBin := cBin0 ^^^ (cBin0 >>> 1)
  if cBin = 0 ∨ cBin = 6 ∨ cBin > 6 then none
  else
    let abGray := ((a4 * 4 + a2 * 2 + a1) <<< 3) ||| (b4 * 4 + b2 * 2 + b1)
    let ab1 := abGray ^^^ (abGray >>> 4)
    let ab2 := ab1 ^^^ (ab1 >>> 2)
    let abBin := ab2 ^^^ (ab2 >>> 1)
    let altitude : ℤ := (abBin : ℤ) * 500 + (cBin : ℤ) * 100 - 1200
    if ¬(-1200 ≤ altitude ∧ altitude ≤ 126750) then none
    else some altitude

/-- `decode.rs::decode_altitude` (12-bit code). -/
def decodeAltitude (altCode : ℕ) : Option ℤ :=
  if altCode = 0 then none
  else
    let qBit := (altCode >>> 4) &&& 1
    if qBit = 1 then
      let n := ((altCode >>> 5) <<< 4) ||| (altCode &&& 0x0F)
      some ((n : ℤ) * 25 - 1000)
    else decodeGillhamAltitude altCode

/-- `decode.rs::decode_altitude_13bit`. -/
def decodeAltitude13bit (altCode13 : ℕ) : Option ℤ :=
  if altCode13 = 0 then none
  else
    let mBit := (altCode13 >>> 6) &&& 1
    let qBit := (altCode13 >>> 4) &&& 1
    if mBit = 1 then none
    else if qBit = 1 then
      let n := ((altCode13 &&& 0x1F80) >>> 2) ||| ((altCode13 &&& 0x0020) >>> 1) |||
        (altCode13 &&& 0x000F)
      some ((n : ℤ) * 25 - 1000)
    else decodeGillhamAltitude altCode13

/-- `decode.rs::decode_squawk` (four octal digits as ASCII bytes). -/
def decodeSquawk (idCode : ℕ) : List ℕ :=
  let c1 := (idCode >>> 12) &&& 1
  let a1 := (idCode >>> 11) &&& 1
  let c2 := (idCode >>> 10) &&& 1
  let a2 := (idCode >>> 9) &&& 1
  let c4 := (idCode >>> 8) &&& 1
  let a4 := (idCode >>> 7) &&& 1
  let b1 := (idCode >>> 5) &&& 1
  let d1 := (idCode >>> 4) &&& 1
  let b2 := (idCode >>> 3) &&& 1
  let d2 := (idCode >>> 2) &&& 1
  let b4 := (idCode >>> 1) &&& 1
  let d4 := idCode &&& 1
  [48 + (a4 * 4 + a2 * 2 + a1), 48 + (b4 * 4 + b2 * 2 + b1),
   48 + (c4 * 4 + c2 * 2 + c1), 48 + (d4 * 4 + d2 * 2 + d1)]

/-- `decode.rs::decode_identification` (TC 1–4). -/
def decodeIdentification (frame : ModeFrame) : Option IdentificationMsg :=
  match frame.typeCode with
  | none => none
  | some tc =>
    if ¬(1 ≤ tc ∧ tc ≤ 4) then none
    else
      let me := frame.me
      if me.length < 7 then none
      else
        let category := me.getD 0 0 &&& 0x07
        let bits := beBytes me
        let callsign := (List.range 8).map (fun i =>
          let idx := (bits >>> (42 - i * 6)) &&& 0x3F
          if idx < CALLSIGN_CHARSET.length then CALLSIGN_CHARSET.getD idx 0 else 32)
        some { icao := frame.icao, callsign := callsign, category := category,
               timestamp := frame.timestamp }

/-- `decode.rs::decode_position` (TC 5–8 surface, 9–18/20–22 airborne). -/
def decodePosition (frame : ModeFrame) : Option PositionMsg :=
  match frame.typeCode with
  | none => none
  | some tc =>
    let isSurface := 5 ≤ tc ∧ tc ≤ 8
    let isAirborneBaro := 9 ≤ tc ∧ tc ≤ 18
    let isAirborneGnss := 20 ≤ tc ∧ tc ≤ 22
    if ¬isSurface ∧ ¬isAirborneBaro ∧ ¬isAirborneGnss then none
    else
      let me := frame.me
      if me.length < 7 then none
      else
        let bits := beBytes me
        let ss := (bits >>> 49) &&& 0x03
        let altitudeFt :=
          if isAirborneBaro ∨ isAirborneGnss then
            decodeAltitude ((bits >>> 36) &&& 0x0FFF)
          else none
        let cprOdd := ((bits >>> 34) &&& 1) == 1
        let cprLat := (bits >>> 17) &&& 0x1FFFF
        let cprLon := bits &&& 0x1FFFF
        some { icao := frame.icao, altitudeFt := altitudeFt, cprLat := cprLat,
               cprLon := cprLon, cprOdd := cprOdd, surveillanceStatus := ss,
               timestamp := frame.timestamp, isSurface := decide isSurface }

/-- `decode.rs::decode_ground_velocity` (subtypes 1–2). -/
noncomputable def decodeGroundVelocity (icao : Icao) (bits : ℕ) (timestamp : ℚ) :
    VelocityMsg :=
  let ewDir := (bits >>> 42) &&& 1
  let ewVel : ℤ := ((bits >>> 32) &&& 0x3FF : ℕ) - 1
  let nsDir := (bits >>> 31) &&& 1
  let nsVel : ℤ := ((bits >>> 21) &&& 0x3FF : ℕ) - 1
  let vrSign := (bits >>> 19) &&& 1
  let vrVal : ℤ := ((bits >>> 10) &&& 0x1FF : ℕ) - 1
  let speedHeading : Option ℝ × Option ℝ :=
    if 0 ≤ ewVel ∧ 0 ≤ nsVel then
      let vx : ℝ := if ewDir = 1 then -(ewVel : ℝ) else (ewVel : ℝ)
      let vy : ℝ := if nsDir = 1 then -(nsVel : ℝ) else (nsVel : ℝ)
      let spd := Real.sqrt (vx * vx + vy * vy)
      let hdg := modulo (toDegrees (atan2 vx vy)) 360
      (some (round2 spd), some (round2 hdg))
    else (none, none)
  let vrate : Option ℤ :=
    if 0 ≤ vrVal then
      some (if vrSign = 1 then -(vrVal * 64) else vrVal * 64)
    else none
  { icao := icao, speedKts := speedHeading.1, headingDeg := speedHeading.2,
    verticalRateFpm := vrate, speedType := SpeedType.ground, timestamp := timestamp }

/-- `decode.rs::decode_airspeed` (subtypes 3–4). -/
noncomputable def decodeAirspeed (icao : Icao) (bits : ℕ) (subtype : ℕ)
    (timestamp : ℚ) : VelocityMsg :=
  let hdgAvailable := (bits >>> 42) &&& 1
  let hdgRaw := (bits >>> 32) &&& 0x3FF
  let speedTypeBit := (bits >>> 31) &&& 1
  let speedRaw : ℤ := ((bits >>> 21) &&& 0x3FF : ℕ)
  let vrSign := (bits >>> 10) &&& 1
  let vrVal : ℤ := ((bits >>> 1) &&& 0x1FF : ℕ) - 1
  let heading : Option ℝ :=
    if hdgAvailable = 1 then some (round2 ((hdgRaw : ℝ) * 360 / 1024)) else none
  let speed : Option ℝ :=
    if 0 < speedRaw then some ((speedRaw - 1 : ℤ) : ℝ) else none
  let vrate : Option ℤ :=
    if 0 ≤ vrVal then
      some (if vrSign = 1 then -(vrVal * 64) else vrVal * 64)
    else none
  { icao := icao, speedKts := speed, headingDeg := heading,
    verticalRateFpm := vrate,
    speedType := if speedTypeBit = 1 then SpeedType.tas else SpeedType.ias,
    timestamp := timestamp }

/-- `decode.rs::decode_velocity` (TC 19). -/
noncomputable def decodeVelocity (frame : ModeFrame) : Option VelocityMsg :=
  match frame.typeCode with
  | none => none
  | some tc =>
    if tc ≠ 19 then none
    else
      let me := frame.me
      if me.length < 7 then none
      else
        let bits := beBytes me
        let subtype := (bits >>> 48) &&& 0x07
        if subtype = 1 ∨ subtype = 2 then
          some (decodeGroundVelocity frame.icao bits frame.timestamp)
        else if subtype = 3 ∨ subtype = 4 then
          some (decodeAirspeed frame.icao bits subtype frame.timestamp)
        else none

/-- `decode.rs::decode_df_altitude` (DF 0/4/16/20). -/
def decodeDfAltitude (frame : ModeFrame) : Option AltitudeMsg :=
  if ¬(frame.df = 0 ∨ frame.df = 4 ∨ frame.df = 16 ∨ frame.df = 20) then none
  else if frame.raw.length < 4 then none
  else
    let altCode := ((frame.raw.getD 2 0 &&& 0x1F) <<< 8) ||| frame.raw.getD 3 0
    some { icao := frame.icao, altitudeFt := decodeAltitude13bit altCode,
           timestamp := frame.timestamp }

/-- `decode.rs::decode_df_squawk` (DF 5/21). -/
def decodeDfSquawk (frame : ModeFrame) : Option SquawkMsg :=
  if ¬(frame.df = 5 ∨ frame.df = 21) then none
  else if frame.raw.length < 4 then none
  else
    let idCode := ((frame.raw.getD 2 0 &&& 0x1F) <<< 8) ||| frame.raw.getD 3 0
    some { icao := frame.icao, squawk := decodeSquawk idCode,
           timestamp := frame.timestamp }

/-- `decode.rs::decode`: route a frame to the appropriate decoder.  Frames
with `crc_ok = false` are never decoded. -/
noncomputable def decode (frame : ModeFrame) : Option DecodedMsg :=
  if frame.crcOk = false then none
  else
    if frame.df = 17 ∨ frame.df = 18 then
      match frame.typeCode with
      | none => none
      | some tc =>
        if 1 ≤ tc ∧ tc ≤ 4 then (decodeIdentification frame).map DecodedMsg.identification
        else if (5 ≤ tc ∧ tc ≤ 18) ∨ (20 ≤ tc ∧ tc ≤ 22) then
          (decodePosition frame).map DecodedMsg.position
        else if tc = 19 then (decodeVelocity frame).map DecodedMsg.velocity
        else none
    else if frame.df = 0 ∨ frame.df = 4 ∨ frame.df = 16 ∨ frame.df = 20 then
      (decodeDfAltitude frame).map DecodedMsg.altitude
    else if frame.df = 5 ∨ frame.df = 21 then
      (decodeDfSquawk frame).map DecodedMsg.squawk
    else none

/-! #### C7: callsign rendering of the 64-character alphabet -/

/-- A TC=1 identification frame whose eight 6-bit characters are all index
0 — the `'#'` filler at position 0 of the alphabet. -/
def frameC7 : ModeFrame :=
  { df := 17, icao := (0, 0, 0), raw := [141, 0, 0, 0, 8, 0, 0, 0, 0, 0, 0, 0, 0, 0],
    timestamp := 0, signalLevel := none, msgBits := 112, crcOk := true,
    corrected := false }

/-! ### CPR position decoding (`cpr.rs`)

`f64` arithmetic is modelled on `ℝ`; `f64::floor() as i32` becomes
`Int.floor`. -/

/-- `cpr.rs::CPR_MAX = (1u32 << 17) as f64 = 131072`. -/
def cprMax : ℝ := 131072

/-- `cpr.rs::MAX_PAIR_AGE`. -/
def MAX_PAIR_AGE : ℝ := 10

/-- `cpr.rs::nl`: longitude-zone count at a latitude (`NZ = 15`; the local
bindings `a` and `b` of the source are inlined). -/
noncomputable def nl (lat : ℝ) : ℤ :=
  if 87 ≤ |lat| then 1
  else
    max ⌊2 * Real.pi / Real.arccos (1 - (1 - Real.cos (Real.pi / (2 * 15))) /
      Real.cos (Real.pi / 180 * |lat|) ^ 2)⌋ 1

/-- `cpr.rs::round6`. -/
noncomputable def round6 (x : ℝ) : ℝ := (roundHalfAway (x * 1000000) : ℝ) / 1000000

/-- The latitude zone index `j` of `cpr.rs::global_decode`. -/
noncomputable def cprJ (latEven latOdd : ℕ) : ℤ :=
  ⌊59 * ((latEven : ℝ) / cprMax) - 60 * ((latOdd : ℝ) / cprMax) + 0.5⌋

/-- The even candidate latitude (`lat_e`) of `global_decode`, after the
`>= 270` normalization. -/
noncomputable def cprLatCandE (latEven latOdd : ℕ) : ℝ :=
  let l := (360 / (4 * 15) : ℝ) *
    (modulo ((cprJ latEven latOdd : ℤ) : ℝ) 60 + (latEven : ℝ) / cprMax)
  if 270 ≤ l then l - 360 else l

/-- The odd candidate latitude (`lat_o`) of `global_decode`, after the
`>= 270` normalization. -/
noncomputable def cprLatCandO (latEven latOdd : ℕ) : ℝ :=
  let l := (360 / (4 * 15 - 1) : ℝ) *
    (modulo ((cprJ latEven latOdd : ℤ) : ℝ) 59 + (latOdd : ℝ) / cprMax)
  if 270 ≤ l then l - 360 else l

/-- `cpr.rs::global_decode`. -/
noncomputable def globalDecode (latEven lonEven latOdd lonOdd : ℕ)
    (tEven tOdd : ℝ) : Option (ℝ × ℝ) :=
  if MAX_PAIR_AGE < |tEven - tOdd| then none
  else
    let latE := cprLatCandE latEven latOdd
    let latO := cprLatCandO latEven latOdd
    if nl latE ≠ nl latO then none
    else
      let lonEvenCpr := (lonEven : ℝ) / cprMax
      let lonOddCpr := (lonOdd : ℝ) / cprMax
      let latlon :=
        if tOdd ≤ tEven then
          -- use the even frame
          let nlv := nl latE
          let nLon := max nlv 1
          let m : ℤ := ⌊lonEvenCpr * ((nlv : ℝ) - 1) - lonOddCpr * (nlv : ℝ) + 0.5⌋
          (latE, (360 / (nLon : ℝ)) * (modulo (m : ℝ) (nLon : ℝ) + lonEvenCpr))
        else
          -- use the odd frame
          let nlv := nl latO
          let nLon := max (nlv - 1) 1
          let m : ℤ := ⌊lonEvenCpr * ((nlv : ℝ) - 1) - lonOddCpr * (nlv : ℝ) + 0.5⌋
          (latO, (360 / (nLon : ℝ)) * (modulo (m : ℝ) (nLon : ℝ) + lonOddCpr))
      let lon := if 180 ≤ latlon.2 then latlon.2 - 360 else latlon.2
      some (round6 latlon.1, round6 lon)

/-- `cpr.rs::local_decode`. -/
noncomputable def localDecode (cprLat cprLon : ℕ) (cprOdd : Bool)
    (refLat refLon : ℝ) : ℝ × ℝ :=
  let i : ℝ := if cprOdd then 1 else 0
  let dlat := 360 / (4 * 15 - i)
  let cprLatNorm := (cprLat : ℝ) / cprMax
  let cprLonNorm := (cprLon : ℝ) / cprMax
  let j := ((⌊refLat / dlat⌋ : ℤ) : ℝ) +
    ((⌊modulo refLat dlat / dlat - cprLatNorm + 0.5⌋ : ℤ) : ℝ)
  let lat := dlat * (j + cprLatNorm)
  let nLon := max (nl lat - (if cprOdd then 1 else 0)) 1
  let dlon := 360 / (nLon : ℝ)
  let m := ((⌊refLon / dlon⌋ : ℤ) : ℝ) +
    ((⌊modulo refLon dlon / dlon - cprLonNorm + 0.5⌋ : ℤ) : ℝ)
  let lon0 := dlon * (m + cprLonNorm)
  let lat2 := if 90 < lat then lat - 360 else lat
  let lon2 := if 180 ≤ lon0 then lon0 - 360 else lon0
  (round6 lat2, round6 lon2)

/-! ### Tracker (`tracker.rs`)

The embedded lookup tables of `icao.rs` (country allocation blocks, N-number
derivation, military ranges/prefixes) are abstracted as an `IcaoLookups`
record: every tracker theorem holds for all tables. -/

/-- The pure lookup functions of `icao.rs` used by the tracker. -/
structure IcaoLookups where
  lookupCountry : Icao → Option (List ℕ)
  icaoToNNumber : Icao → Option (List ℕ)
  isMilitary : Icao → Option (List ℕ) → Bool

/-- `tracker.rs::STALE_TIMEOUT`. -/
def STALE_TIMEOUT : ℚ := 60

/-- `tracker.rs::MAX_HISTORY`. -/
def MAX_HISTORY : ℕ := 120

/-- `tracker.rs::TrackEvent`. -/
inductive TrackEvent where
  | newAircraft (icao : Icao) (country : Option (List ℕ))
      (registration : Option (List ℕ)) (isMilitary : Bool) (timestamp : ℚ)
  | aircraftUpdate (icao : Icao) (timestamp : ℚ)
  | sightingUpdate (icao : Icao) (captureId : Option ℤ)
      (callsign : Option (List ℕ)) (squawk : Option (List ℕ))
      (altitudeFt : Option ℤ) (timestamp : ℚ)
  | positionUpdate (icao : Icao) (lat lon : ℝ) (altitudeFt : Option ℤ)
      (speedKts : Option ℝ) (headingDeg : Option ℝ)
      (verticalRateFpm : Option ℤ) (receiverId : Option ℤ) (timestamp : ℚ)

/-- `tracker.rs::AircraftState`. -/
structure AircraftState where
  icao : Icao
  callsign : Option (List ℕ)
  squawk : Option (List ℕ)
  lat : Option ℝ
  lon : Option ℝ
  altitudeFt : Option ℤ
  speedKts : Option ℝ
  headingDeg : Option ℝ
  verticalRateFpm : Option ℤ
  cprEvenLat : Option ℕ
  cprEvenLon : Option ℕ
  cprEvenTime : ℚ
  cprOddLat : Option ℕ
  cprOddLon : Option ℕ
  cprOddTime : ℚ
  country : Option (List ℕ)
  registration : Option (List ℕ)
  isMilitary : Bool
  firstSeen : ℚ
  lastSeen : ℚ
  messageCount : ℕ
  headingHistory : List (ℚ × ℝ)
  positionHistory : List (ℚ × ℝ × ℝ × Option ℤ)

/-- `AircraftState::new`. -/
def AircraftState.new (lk : IcaoLookups) (icao : Icao) (timestamp : ℚ) :
    AircraftState :=
  { icao := icao, callsign := none, squawk := none, lat := none, lon := none,
    altitudeFt := none, speedKts := none, headingDeg := none,
    verticalRateFpm := none, cprEvenLat := none, cprEvenLon := none,
    cprEvenTime := 0, cprOddLat := none, cprOddLon := none, cprOddTime := 0,
    country := lk.lookupCountry icao,
    registration := lk.icaoToNNumber icao,
    isMilitary := lk.isMilitary icao none,
    firstSeen := timestamp, lastSeen := timestamp, messageCount := 0,
    headingHistory := [], positionHistory := [] }

/-- `tracker.rs::Tracker`.  The two `HashMap`s are modelled as functions to
`Option` (only lookups and pointwise inserts are performed on them). -/
structure Tracker where
  aircraft : Icao → Option AircraftState
  receiverId : Option ℤ
  captureId : Option ℤ
  refLat : Option ℝ
  refLon : Option ℝ
  minPositionInterval : ℚ
  lastStored : Icao → Option ℚ
  totalFrames : ℕ
  validFrames : ℕ
  positionDecodes : ℕ
  positionsSkipped : ℕ

/-- `Tracker::new`. -/
def Tracker.new (receiverId captureId : Option ℤ) (refLat refLon : Option ℝ)
    (minPositionInterval : ℚ) : Tracker :=
  { aircraft := fun _ => none, receiverId := receiverId, captureId := captureId,
    refLat := refLat, refLon := refLon,
    minPositionInterval := minPositionInterval,
    lastStored := fun _ => none, totalFrames := 0, validFrames := 0,
    positionDecodes := 0, positionsSkipped := 0 }

/-- `tracker.rs::try_cpr_decode`. -/
noncomputable def tryCprDecode (ac : AircraftState)
    (trackerRefLat trackerRefLon : Option ℝ) : Option (ℝ × ℝ) :=
  let globalResult :=
    if ac.cprEvenLat.isSome ∧ ac.cprOddLat.isSome then
      globalDecode (ac.cprEvenLat.getD 0) (ac.cprEvenLon.getD 0)
        (ac.cprOddLat.getD 0) (ac.cprOddLon.getD 0)
        (ac.cprEvenTime : ℝ) (ac.cprOddTime : ℝ)
    else none
  match globalResult with
  | some r => some r
  | none =>
    let refPair : Option (ℝ × ℝ) :=
      match trackerRefLat, trackerRefLon with
      | some lat, some lon => some (lat, lon)
      | _, _ =>
        match ac.lat, ac.lon with
        | some lat, some lon => some (lat, lon)
        | _, _ => none
    match refPair with
    | none => none
    | some (refLat, refLon) =>
      if ac.cprEvenTime ≤ ac.cprOddTime then
        match ac.cprOddLat with
        | some lat => some (localDecode lat (ac.cprOddLon.getD 0) true refLat refLon)
        | none => none
      else
        match ac.cprEvenLat with
        | some lat => some (localDecode lat (ac.cprEvenLon.getD 0) false refLat refLon)
        | none => none

/-- The altitude-update and CPR-slot store of the tracker's `Position`
branch (`tracker.rs` lines 240–253). -/
def storeCpr (ac : AircraftState) (m : PositionMsg) : AircraftState :=
  let ac := match m.altitudeFt with
    | some alt => { ac with altitudeFt := some alt }
    | none => ac
  if m.cprOdd then
    { ac with cprOddLat := some m.cprLat, cprOddLon := some m.cprLon,
              cprOddTime := m.timestamp }
  else
    { ac with cprEvenLat := some m.cprLat, cprEvenLon := some m.cprLon,
              cprEvenTime := m.timestamp }

/-- The `Position` branch of `Tracker::update` (`tracker.rs` lines
239–287): store the CPR frame, attempt a resolve, record history, and
downsample the emitted `position-update` event. -/
def positionStep (resolve : AircraftState → Option ℝ → Option ℝ → Option (ℝ × ℝ))
    (t : Tracker) (ac : AircraftState) (m : PositionMsg) (icao : Icao)
    (timestamp : ℚ) : AircraftState × Tracker × List TrackEvent :=
  let ac := storeCpr ac m
  match resolve ac t.refLat t.refLon with
  | some (lat, lon) =>
    let ac := { ac with lat := some lat, lon := some lon }
    let t := { t with positionDecodes := t.positionDecodes + 1 }
    let hist := ac.positionHistory ++ [(timestamp, lat, lon, ac.altitudeFt)]
    let hist := if hist.length > MAX_HISTORY then
        hist.drop (hist.length - MAX_HISTORY)
      else hist
    let ac := { ac with positionHistory := hist }
    match t.lastStored icao with
    | none =>
      (ac, { t with lastStored := fun k =>
          if k = icao then some timestamp else t.lastStored k },
       [TrackEvent.positionUpdate icao lat lon ac.altitudeFt ac.speedKts
          ac.headingDeg ac.verticalRateFpm t.receiverId timestamp])
    | some last =>
      if t.minPositionInterval ≤ timestamp - last then
        (ac, { t with lastStored := fun k =>
            if k = icao then some timestamp else t.lastStored k },
         [TrackEvent.positionUpdate icao lat lon ac.altitudeFt ac.speedKts
            ac.headingDeg ac.verticalRateFpm t.receiverId timestamp])
      else
        (ac, { t with positionsSkipped := t.positionsSkipped + 1 }, [])
  | none => (ac, t, [])

/-- The `Identification` branch of `Tracker::update` (`tracker.rs` lines
229–238): trim, re-check the military flag, store the callsign. -/
def identStep (lk : IcaoLookups) (icao : Icao) (ac : AircraftState)
    (m : IdentificationMsg) : AircraftState :=
  let cs := trimBytes m.callsign
  if cs ≠ [] then
    let mil := if ¬ac.isMilitary then lk.isMilitary icao (some cs)
      else ac.isMilitary
    { ac with isMilitary := mil, callsign := some cs }
  else ac

/-- The `Velocity` branch of `Tracker::update` (`tracker.rs` lines
289–304). -/
def velocityStep (ac : AircraftState) (m : VelocityMsg) (timestamp : ℚ) :
    AircraftState :=
  let ac := match m.speedKts with
    | some spd => { ac with speedKts := some spd }
    | none => ac
  let ac := match m.headingDeg with
    | some hdg =>
      let hh := ac.headingHistory ++ [(timestamp, hdg)]
      let hh := if hh.length > MAX_HISTORY then
          hh.drop (hh.length - MAX_HISTORY)
        else hh
      { ac with headingDeg := some hdg, headingHistory := hh }
    | none => ac
  match m.verticalRateFpm with
  | some vr => { ac with verticalRateFpm := some vr }
  | none => ac

/-- The `Altitude` branch of `Tracker::update` (`tracker.rs` lines
305–309). -/
def altitudeStep (ac : AircraftState) (m : AltitudeMsg) : AircraftState :=
  match m.altitudeFt with
  | some alt => { ac with altitudeFt := some alt }
  | none => ac

/-- The get-or-create step of `Tracker::update` (`tracker.rs` lines
210–221): create the aircraft record and the `new-aircraft` event when the
address is new. -/
def ensureAircraft (lk : IcaoLookups) (t : Tracker) (icao : Icao)
    (timestamp : ℚ) : Tracker × List TrackEvent :=
  if (t.aircraft icao).isNone then
    let ac0 := AircraftState.new lk icao timestamp
    ({ t with aircraft := fun k =>
        if k = icao then some (AircraftState.new lk icao timestamp)
        else t.aircraft k },
     [TrackEvent.newAircraft icao ac0.country ac0.registration
        ac0.isMilitary timestamp])
  else (t, [])

/-- The write-back and event tail of `Tracker::update` (`tracker.rs` lines
315–326): store the dispatched aircraft state and append the
`aircraft-update` and `sighting-update` events. -/
def assemble (newEvents : List TrackEvent) (captureId : Option ℤ)
    (icao : Icao) (timestamp : ℚ)
    (step : AircraftState × Tracker × List TrackEvent) :
    Tracker × List TrackEvent :=
  ({ step.2.1 with aircraft := fun k =>
      if k = icao then some step.1 else step.2.1.aircraft k },
   newEvents ++ step.2.2 ++
     [TrackEvent.aircraftUpdate icao timestamp,
      TrackEvent.sightingUpdate icao captureId step.1.callsign step.1.squawk
        step.1.altitudeFt timestamp])

/-- The body of `Tracker::update` after a successful decode (`tracker.rs`
lines 206–326), continued: dispatch on the message variant and emit the
trailing aircraft-update and sighting-update events. -/
def Tracker.applyMsg (lk : IcaoLookups)
    (resolve : AircraftState → Option ℝ → Option ℝ → Option (ℝ × ℝ))
    (t : Tracker) (msg : DecodedMsg) : Tracker × List TrackEvent :=
  let icao := msg.icao
  let timestamp := msg.timestamp
  let r0 := ensureAircraft lk t icao timestamp
  let newEvents := r0.2
  let t := r0.1
  let ac := (t.aircraft icao).getD (AircraftState.new lk icao timestamp)
  let ac := { ac with lastSeen := timestamp, messageCount := ac.messageCount + 1 }
  let step : AircraftState × Tracker × List TrackEvent :=
    match msg with
    | .identification m => (identStep lk icao ac m, t, [])
    | .position m => positionStep resolve t ac m icao timestamp
    | .velocity m => (velocityStep ac m timestamp, t, [])
    | .altitude m => (altitudeStep ac m, t, [])
    | .squawk m => ({ ac with squawk := some m.squawk }, t, [])
  assemble newEvents t.captureId icao timestamp step

/-- `tracker.rs::Tracker::update`, parametric in the CPR resolver (the
source calls `try_cpr_decode`; see `Tracker.update` for that instance).
The `&mut self` receiver becomes explicit state passing. -/
noncomputable def Tracker.updateWith (lk : IcaoLookups)
    (resolve : AircraftState → Option ℝ → Option ℝ → Option (ℝ × ℝ))
    (t : Tracker) (frame : ModeFrame) :
    Tracker × Option DecodedMsg × List TrackEvent :=
  let t := { t with totalFrames := t.totalFrames + 1 }
  match decode frame with
  | none => (t, none, [])
  | some msg =>
    let r := Tracker.applyMsg lk resolve
      { t with validFrames := t.validFrames + 1 } msg
    (r.1, some msg, r.2)

/-- `Tracker::update` proper: `updateWith` instantiated with the source's
`try_cpr_decode` resolver (the tracker passes its own reference position). -/
noncomputable def Tracker.update (lk : IcaoLookups) (t : Tracker)
    (frame : ModeFrame) : Tracker × Option DecodedMsg × List TrackEvent :=
  t.updateWith lk (fun ac rlat rlon => tryCprDecode ac rlat rlon) frame

/-- Fold `updateWith` over a list of frames, concatenating the emitted
events. -/
noncomputable def Tracker.runUpdates (lk : IcaoLookups)
    (resolve : AircraftState → Option ℝ → Option ℝ → Option (ℝ × ℝ)) :
    Tracker → List ModeFrame → Tracker × List TrackEvent
  | t, [] => (t, [])
  | t, f :: fs =>
    let r := t.updateWith lk resolve f
    let rest := Tracker.runUpdates lk resolve r.1 fs
    (rest.1, r.2.2 ++ rest.2)

/-- The timestamps of the `position-update` events for one address, in
emission order. -/
def posTimes (evs : List TrackEvent) (icao : Icao) : List ℚ :=
  evs.filterMap fun e =>
    match e with
    | .positionUpdate i _ _ _ _ _ _ _ ts => if i = icao then some ts else none
    | _ => none

def lkNone : IcaoLookups := ⟨fun _ => none, fun _ => none, fun _ _ => false⟩

def trkW : Tracker := Tracker.new none none none none 2

def acW : AircraftState := AircraftState.new lkNone (0, 0, 0) 0

def mW : PositionMsg := ⟨(0, 0, 0), none, 0, 0, false, 0, 0, false⟩

noncomputable def resolveW : AircraftState → Option ℝ → Option ℝ →
    Option (ℝ × ℝ) := fun _ _ _ => some (1, 2)

/-! #### Facts about the hex codec -/

theorem hexDigit_lt_16 {b h : ℕ} (hd : hexDigit b = some h) : h < 16 := by
  unfold hexDigit at hd
  split at hd
  · injection hd with hd; omega
  split at hd
  · injection hd with hd; omega
  split at hd
  · injection hd with hd; omega
  · cases hd

/-- `(high << 4) | low` is just `16 * high + low` when `low < 16`. -/
theorem hexByte_eq {hi lo : ℕ} (hlo : lo < 16) : (hi <<< 4) ||| lo = 16 * hi + lo := by
  have h := Nat.mul_add_lt_is_or (i := 4) (a := hi) (b := lo) (by omega)
  have h4 : (2 : ℕ) ^ 4 = 16 := by norm_num
  rw [h4] at h
  rw [Nat.shiftLeft_eq, h4, Nat.mul_comm]
  omega

theorem hexPairs_byte_lt {t bs : List ℕ} (h : hexPairs t = some bs) :
    ∀ b ∈ bs, b < 256 := by
  induction t using hexPairs.induct generalizing bs with
  | case1 =>
    simp only [hexPairs] at h
    injection h with h
    simp [← h]
  | case2 c => simp [hexPairs] at h
  | case3 c1 c2 rest hi lo bs' hr hl hh ih =>
    unfold hexPairs at h
    rw [hh, hl, hr] at h
    injection h with h
    intro b hb
    rw [← h] at hb
    rcases List.mem_cons.1 hb with hb | hb
    · have h1 := hexDigit_lt_16 hh
      have h2 := hexDigit_lt_16 hl
      rw [hb, hexByte_eq h2]
      omega
    · exact ih hr b hb
  | case4 c1 c2 rest hno ih =>
    unfold hexPairs at h
    exfalso
    cases hh : hexDigit c1 with
    | none => rw [hh] at h; simp at h
    | some hi =>
      cases hl : hexDigit c2 with
      | none => rw [hh, hl] at h; simp at h
      | some lo =>
        cases hr : hexPairs rest with
        | none => rw [hh, hl, hr] at h; simp at h
        | some bs' => exact hno hi lo bs' hh hl hr

theorem hexDigit_toUpper {c h : ℕ} (hd : hexDigit c = some h) :
    HEX_CHARS.getD h 48 = toUpperByte c := by
  unfold hexDigit at hd
  split at hd
  · injection hd with hd
    subst hd
    rename_i hc
    obtain ⟨hc1, hc2⟩ := hc
    interval_cases c <;> decide
  split at hd
  · injection hd with hd
    subst hd
    rename_i hc
    obtain ⟨hc1, hc2⟩ := hc
    interval_cases c <;> decide
  split at hd
  · injection hd with hd
    subst hd
    rename_i hc
    obtain ⟨hc1, hc2⟩ := hc
    interval_cases c <;> decide
  · cases hd

theorem hexByte_shiftRight {hi lo : ℕ} (hlo : lo < 16) :
    (16 * hi + lo) >>> 4 = hi := by
  rw [Nat.shiftRight_eq_div_pow]
  omega

theorem hexByte_and {hi lo : ℕ} (hlo : lo < 16) : (16 * hi + lo) &&& 15 = lo := by
  have h : (15 : ℕ) = 2 ^ 4 - 1 := by norm_num
  rw [h, Nat.and_pow_two_sub_one_eq_mod]
  omega

theorem hexPairs_encode {t bs : List ℕ} (h : hexPairs t = some bs) :
    hexEncode bs = toUpperBytes t := by
  induction t using hexPairs.induct generalizing bs with
  | case1 =>
    simp only [hexPairs] at h
    injection h with h
    simp [← h, hexEncode, toUpperBytes]
  | case2 c => simp [hexPairs] at h
  | case3 c1 c2 rest hi lo bs' hr hl hh ih =>
    unfold hexPairs at h
    rw [hh, hl, hr] at h
    injection h with h
    have h1 := hexDigit_lt_16 hh
    have h2 := hexDigit_lt_16 hl
    rw [← h]
    simp only [hexEncode, List.flatMap_cons, toUpperBytes, List.map_cons]
    rw [hexByte_eq h2, hexByte_shiftRight h2, hexByte_and h2,
      hexDigit_toUpper hh, hexDigit_toUpper hl]
    have := ih hr
    simp only [hexEncode, toUpperBytes] at this
    rw [this]
    simp
  | case4 c1 c2 rest hno ih =>
    unfold hexPairs at h
    exfalso
    cases hh : hexDigit c1 with
    | none => rw [hh] at h; simp at h
    | some hi =>
      cases hl : hexDigit c2 with
      | none => rw [hh, hl] at h; simp at h
      | some lo =>
        cases hr : hexPairs rest with
        | none => rw [hh, hl, hr] at h; simp at h
        | some bs' => exact hno hi lo bs' hh hl hr

/-- C8: hex encode ∘ hex decode is the identity up to uppercasing: whenever
`hex_decode` accepts a string (modulo the trim it performs), `hex_encode` of
the resulting bytes is the uppercase form of the accepted hex digits. -/
theorem C8_hex_roundtrip {s bs : List ℕ} (h : hexDecode s = some bs) :
    hexEncode bs = toUpperBytes (trimBytes s) := by
  unfold hexDecode at h
  simp only at h
  split at h
  · exact hexPairs_encode h
  · cases h

/-- Witness for C8 at the concrete input "4a" (bytes 52, 97). -/
theorem C8_hex_roundtrip_witness :
    hexDecode [52, 97] = some [74] ∧ hexEncode [74] = toUpperBytes (trimBytes [52, 97]) :=
  ⟨by decide, C8_hex_roundtrip (by decide)⟩

theorem isWsB_toUpper (b : ℕ) : isWsB (toUpperByte b) = isWsB b := by
  unfold toUpperByte isWsB
  split
  · rename_i hb
    have e1 : (b - 32 == 9) = false := beq_eq_false_iff_ne.2 (by omega)
    have e2 : (b - 32 == 10) = false := beq_eq_false_iff_ne.2 (by omega)
    have e3 : (b - 32 == 13) = false := beq_eq_false_iff_ne.2 (by omega)
    have e4 : (b - 32 == 32) = false := beq_eq_false_iff_ne.2 (by omega)
    have f1 : (b == 9) = false := beq_eq_false_iff_ne.2 (by omega)
    have f2 : (b == 10) = false := beq_eq_false_iff_ne.2 (by omega)
    have f3 : (b == 13) = false := beq_eq_false_iff_ne.2 (by omega)
    have f4 : (b == 32) = false := beq_eq_false_iff_ne.2 (by omega)
    rw [e1, e2, e3, e4, f1, f2, f3, f4]
  · rfl

theorem trimBytes_toUpper (s : List ℕ) :
    trimBytes (toUpperBytes s) = toUpperBytes (trimBytes s) := by
  have hfun : (isWsB ∘ toUpperByte) = isWsB := funext isWsB_toUpper
  unfold trimBytes toUpperBytes
  rw [List.dropWhile_map, hfun, ← List.map_reverse, List.dropWhile_map, hfun,
    ← List.map_reverse]

set_option maxRecDepth 2000 in
theorem hexDigit_toUpperByte (c : ℕ) : hexDigit (toUpperByte c) = hexDigit c := by
  unfold toUpperByte hexDigit
  split_ifs <;> first | rfl | omega | (exact congrArg some (by omega))

theorem hexPairs_toUpper : ∀ t, hexPairs (toUpperBytes t) = hexPairs t
  | [] => rfl
  | [_] => rfl
  | c1 :: c2 :: rest => by
    show hexPairs (toUpperByte c1 :: toUpperByte c2 :: toUpperBytes rest) = _
    unfold hexPairs
    rw [hexDigit_toUpperByte, hexDigit_toUpperByte, hexPairs_toUpper rest]

theorem hexDecode_toUpper (s : List ℕ) : hexDecode (toUpperBytes s) = hexDecode s := by
  unfold hexDecode
  simp only [trimBytes_toUpper]
  rw [show (toUpperBytes (trimBytes s)).length = (trimBytes s).length from
    List.length_map _ _]
  split
  · exact hexPairs_toUpper _
  · rfl

theorem isWsB_HEX (i : ℕ) : isWsB (HEX_CHARS.getD i 48) = false := by
  by_cases h : i < 16
  · interval_cases i <;> decide
  · rw [List.getD_eq_default]
    · decide
    · simp only [HEX_CHARS]
      simp
      omega

theorem hexDigit_HEX {i : ℕ} (h : i < 16) : hexDigit (HEX_CHARS.getD i 48) = some i := by
  interval_cases i <;> decide

theorem dropWhile_eq_self_of {p : ℕ → Bool} {l : List ℕ}
    (h : ∀ c ∈ l, p c = false) : l.dropWhile p = l := by
  cases l with
  | nil => rfl
  | cons a l =>
    rw [List.dropWhile_cons, h a (List.mem_cons_self a l)]
    simp

theorem trimBytes_eq_self {l : List ℕ} (h : ∀ c ∈ l, isWsB c = false) :
    trimBytes l = l := by
  unfold trimBytes
  rw [dropWhile_eq_self_of h, dropWhile_eq_self_of, List.reverse_reverse]
  intro c hc
  exact h c (List.mem_reverse.1 hc)

theorem mem_hexEncode_not_ws {bs : List ℕ} {c : ℕ} (hc : c ∈ hexEncode bs) :
    isWsB c = false := by
  unfold hexEncode at hc
  rw [List.mem_flatMap] at hc
  obtain ⟨b, _, hc⟩ := hc
  rw [List.mem_cons, List.mem_singleton] at hc
  rcases hc with rfl | rfl <;> exact isWsB_HEX _

theorem hexEncode_length (bs : List ℕ) : (hexEncode bs).length = 2 * bs.length := by
  induction bs with
  | nil => rfl
  | cons b bs ih =>
    unfold hexEncode at ih ⊢
    rw [List.flatMap_cons, List.length_append, ih]
    simp
    omega

theorem byte_split_lt {b : ℕ} (hb : b < 256) : b >>> 4 < 16 ∧ b &&& 15 < 16 := by
  constructor
  · rw [Nat.shiftRight_eq_div_pow]
    omega
  · have h : (15 : ℕ) = 2 ^ 4 - 1 := by norm_num
    rw [h, Nat.and_pow_two_sub_one_eq_mod]
    omega

theorem byte_split_recombine {b : ℕ} (hb : b < 256) :
    ((b >>> 4) <<< 4) ||| (b &&& 15) = b := by
  obtain ⟨h1, h2⟩ := byte_split_lt hb
  rw [hexByte_eq h2, Nat.shiftRight_eq_div_pow]
  have h : (15 : ℕ) = 2 ^ 4 - 1 := by norm_num
  rw [h, Nat.and_pow_two_sub_one_eq_mod]
  omega

theorem hexPairs_hexEncode {bs : List ℕ} (h : ∀ b ∈ bs, b < 256) :
    hexPairs (hexEncode bs) = some bs := by
  induction bs with
  | nil => rfl
  | cons b bs ih =>
    have hb : b < 256 := h b (List.mem_cons_self b bs)
    obtain ⟨h1, h2⟩ := byte_split_lt hb
    show hexPairs (HEX_CHARS.getD (b >>> 4) 48 :: HEX_CHARS.getD (b &&& 15) 48 ::
      hexEncode bs) = some (b :: bs)
    unfold hexPairs
    rw [hexDigit_HEX h1, hexDigit_HEX h2, ih (fun c hc => h c (List.mem_cons_of_mem _ hc))]
    show some ((b >>> 4 <<< 4 ||| (b &&& 15)) :: bs) = some (b :: bs)
    rw [byte_split_recombine hb]

theorem hexDecode_hexEncode {bs : List ℕ} (h : ∀ b ∈ bs, b < 256) :
    hexDecode (hexEncode bs) = some bs := by
  unfold hexDecode
  simp only [trimBytes_eq_self (fun c hc => mem_hexEncode_not_ws hc)]
  rw [hexEncode_length]
  simp only [Nat.mul_mod_right, if_true]
  exact hexPairs_hexEncode h

theorem hexDecode_byte_lt {s bs : List ℕ} (h : hexDecode s = some bs) :
    ∀ b ∈ bs, b < 256 := by
  unfold hexDecode at h
  simp only at h
  split at h
  · exact hexPairs_byte_lt h
  · cases h

/-! ### Trim idempotence

`parse_frame` trims its input and `hex_decode` trims again; these lemmas show
the second trim is a no-op. -/

theorem dropWhile_idem {p : ℕ → Bool} {l : List ℕ} :
    (l.dropWhile p).dropWhile p = l.dropWhile p := by
  induction l with
  | nil => rfl
  | cons a l ih =>
    rw [List.dropWhile_cons]
    split
    · exact ih
    · rename_i h
      rw [List.dropWhile_cons]
      simp only [Bool.not_eq_true] at h
      simp [h]

theorem dropWhile_head_false {p : ℕ → Bool} {l : List ℕ} {a : ℕ} {t : List ℕ}
    (h : l.dropWhile p = a :: t) : p a = false := by
  induction l with
  | nil => cases h
  | cons b l ih =>
    rw [List.dropWhile_cons] at h
    split at h
    · exact ih h
    · rename_i hb
      injection h with h1 _
      rw [← h1]
      simpa using hb

theorem dropWhile_head?_false {p : ℕ → Bool} {l : List ℕ} {b : ℕ}
    (h : (l.dropWhile p).head? = some b) : p b = false := by
  cases hd : l.dropWhile p with
  | nil => rw [hd] at h; cases h
  | cons a t =>
    rw [hd] at h
    injection h with h
    rw [← h]
    exact dropWhile_head_false hd

theorem dropWhile_ne_nil_getLast? {p : ℕ → Bool} {l : List ℕ}
    (h : l.dropWhile p ≠ []) : (l.dropWhile p).getLast? = l.getLast? := by
  induction l with
  | nil => simp at h
  | cons a l ih =>
    rw [List.dropWhile_cons] at h ⊢
    split
    · rename_i hp
      rw [hp] at h
      simp only [if_true] at h
      rw [ih h]
      cases l with
      | nil => simp [List.dropWhile] at h
      | cons b l => rw [List.getLast?_cons_cons]
    · rfl

theorem dropWhile_of_head_false {p : ℕ → Bool} {l : List ℕ}
    (h : ∀ a ∈ l.head?, p a = false) : l.dropWhile p = l := by
  cases l with
  | nil => rfl
  | cons a l =>
    rw [List.dropWhile_cons, h a rfl]
    simp

theorem trimBytes_idem (s : List ℕ) : trimBytes (trimBytes s) = trimBytes s := by
  unfold trimBytes
  set t1 := s.dropWhile isWsB with ht1
  set u := t1.reverse.dropWhile isWsB with hu
  have step1 : u.reverse.dropWhile isWsB = u.reverse := by
    apply dropWhile_of_head_false
    intro a ha
    rw [List.head?_reverse] at ha
    by_cases hne : u = []
    · rw [hne] at ha; cases ha
    · rw [hu, dropWhile_ne_nil_getLast? (hu ▸ hne), List.getLast?_reverse] at ha
      cases hh : t1.head? with
      | none => rw [hh] at ha; cases ha
      | some b =>
        rw [hh] at ha
        injection ha with ha
        rw [← ha]
        rw [ht1] at hh
        exact dropWhile_head?_false hh
  rw [step1, List.reverse_reverse, hu, dropWhile_idem]

theorem hexDecode_trimBytes (s : List ℕ) : hexDecode (trimBytes s) = hexDecode s := by
  unfold hexDecode
  rw [trimBytes_idem]

/-! #### Bit-flip facts -/

theorem xor_small_shiftRight3 {a m : ℕ} (hm : m < 8) : (a ^^^ m) >>> 3 = a >>> 3 := by
  apply Nat.eq_of_testBit_eq
  intro i
  rw [Nat.testBit_shiftRight, Nat.testBit_shiftRight, Nat.testBit_xor,
    Nat.testBit_eq_false_of_lt (lt_of_lt_of_le hm (by
      calc (8 : ℕ) = 2 ^ 3 := by norm_num
      _ ≤ 2 ^ (3 + i) := Nat.pow_le_pow_right (by norm_num) (by omega)))]
  simp

theorem flipBit_length (d : List ℕ) (bit : ℕ) : (flipBit d bit).length = d.length :=
  List.length_set d _ _

theorem flipBits_length (bits : List ℕ) (d : List ℕ) :
    (flipBits d bits).length = d.length := by
  induction bits generalizing d with
  | nil => rfl
  | cons b bits ih => rw [flipBits, List.foldl_cons, ← flipBits, ih, flipBit_length]

theorem flipBit_getD0 {d : List ℕ} {bit : ℕ} (h : 5 ≤ bit) :
    (flipBit d bit).getD 0 0 >>> 3 = d.getD 0 0 >>> 3 := by
  unfold flipBit
  by_cases h8 : bit < 8
  · have hi : bit / 8 = 0 := by omega
    rw [hi]
    cases d with
    | nil => rfl
    | cons a t =>
      simp only [List.set_cons_zero, List.getD_cons_zero]
      exact xor_small_shiftRight3 (by
        have : 7 - bit % 8 ≤ 2 := by omega
        calc 1 <<< (7 - bit % 8) = 2 ^ (7 - bit % 8) := Nat.one_shiftLeft _
        _ ≤ 2 ^ 2 := Nat.pow_le_pow_right (by norm_num) this
        _ < 8 := by norm_num)
  · have hi : bit / 8 ≠ 0 := by omega
    cases d with
    | nil => rfl
    | cons a t =>
      cases hj : bit / 8 with
      | zero => exact absurd hj hi
      | succ j => simp [List.set_cons_succ, List.getD_cons_zero]

theorem flipBits_getD0 {bits : List ℕ} (h : ∀ b ∈ bits, 5 ≤ b) (d : List ℕ) :
    (flipBits d bits).getD 0 0 >>> 3 = d.getD 0 0 >>> 3 := by
  induction bits generalizing d with
  | nil => rfl
  | cons b bits ih =>
    rw [flipBits, List.foldl_cons, ← flipBits, ih (fun c hc => h c (List.mem_cons_of_mem _ hc)),
      flipBit_getD0 (h b (List.mem_cons_self b bits))]

theorem flipBit_byte_lt {d : List ℕ} (hd : ∀ b ∈ d, b < 256) (bit : ℕ) :
    ∀ b ∈ flipBit d bit, b < 256 := by
  intro b hb
  unfold flipBit at hb
  rcases List.mem_or_eq_of_mem_set hb with hb | hb
  · exact hd b hb
  · rw [hb]
    apply Nat.xor_lt_two_pow (n := 8)
    · by_cases hm : bit / 8 < d.length
      · have := hd (d.getD (bit / 8) 0)
          (by rw [List.getD_eq_getElem?_getD]
              rw [List.getElem?_eq_getElem hm]
              exact List.getElem_mem _
              )
        simpa using this
      · rw [List.getD_eq_default _ _ (by omega)]
        norm_num
    · rw [Nat.one_shiftLeft]
      have : 7 - bit % 8 ≤ 7 := by omega
      calc (2 : ℕ) ^ (7 - bit % 8) ≤ 2 ^ 7 := Nat.pow_le_pow_right (by norm_num) this
      _ < 2 ^ 8 := by norm_num

theorem flipBits_byte_lt {bits d : List ℕ} (hd : ∀ b ∈ d, b < 256) :
    ∀ b ∈ flipBits d bits, b < 256 := by
  induction bits generalizing d with
  | nil => exact hd
  | cons b bits ih =>
    rw [flipBits, List.foldl_cons, ← flipBits]
    exact ih (flipBit_byte_lt hd b)

/-- Structural specification of `try_fix`: any returned hex string decodes to
bytes whose CRC residual is 0, of the same length as the input's bytes, and
with the 5-bit DF field (bit positions 0–4, the top five bits of byte 0)
unchanged. -/
theorem tryFix_spec {s f : List ℕ} (h : tryFix s = some f) :
    ∃ d0 d, hexDecode s = some d0 ∧ hexDecode f = some d ∧ crc24 d = 0 ∧
      d.getD 0 0 >>> 3 = d0.getD 0 0 >>> 3 ∧ d.length = d0.length := by
  unfold tryFix at h
  cases hd : hexDecode s with
  | none => rw [hd] at h; cases h
  | some data =>
    rw [hd] at h
    simp only at h
    by_cases hs : crc24 data = 0
    · rw [if_pos hs] at h
      injection h with h
      refine ⟨data, data, rfl, ?_, hs, rfl, rfl⟩
      rw [← h, hexDecode_toUpper, hd]
    · rw [if_neg hs] at h
      cases hl : syndromeLookup (if data.length * 8 = 112 then 112 else 56) (crc24 data) with
      | none => rw [hl] at h; cases h
      | some bitPositions =>
        rw [hl] at h
        have h2 : (if (bitPositions.any fun b => decide (b < 5)) = true then none
            else if crc24 (flipBits data bitPositions) ≠ 0 then none
            else some (hexEncode (flipBits data bitPositions))) = some f := h
        clear h
        by_cases ha : (bitPositions.any fun b => decide (b < 5)) = true
        · rw [if_pos ha] at h2; cases h2
        · rw [if_neg ha] at h2
          by_cases hc : crc24 (flipBits data bitPositions) ≠ 0
          · rw [if_pos hc] at h2; cases h2
          · rw [if_neg hc] at h2
            injection h2 with h
            push_neg at hc
            have hge : ∀ b ∈ bitPositions, 5 ≤ b := by
              intro b hb
              by_contra hlt
              exact ha (List.any_eq_true.2 ⟨b, hb, by simpa using by omega⟩)
            refine ⟨data, flipBits data bitPositions, rfl, ?_, hc,
              flipBits_getD0 hge data, flipBits_length _ _⟩
            rw [← h]
            exact hexDecode_hexEncode (flipBits_byte_lt (hexDecode_byte_lt hd))

theorem icao_beq_iff {a b : Icao} : (a == b) = true ↔ a = b := by
  show decide (a = b) = true ↔ a = b
  simp

/-! #### C9: `IcaoCache::is_known` is a mutating lookup -/

theorem alGet_eq_none_of_not_mem {l : List (Icao × ℚ)} {k : Icao}
    (h : k ∉ l.map Prod.fst) : alGet l k = none := by
  induction l with
  | nil => rfl
  | cons p t ih =>
    rw [List.map_cons, List.mem_cons] at h
    push_neg at h
    unfold alGet
    rw [List.find?_cons_of_neg _ (by
      simp only [icao_beq_iff]
      exact fun he => h.1 he.symm)]
    exact ih h.2

theorem alRemove_of_get {l : List (Icao × ℚ)} {k : Icao} {v : ℚ}
    (hget : alGet l k = some v) (hnd : (l.map Prod.fst).Nodup) :
    (alRemove l k).length + 1 = l.length ∧ alGet (alRemove l k) k = none := by
  induction l with
  | nil => cases hget
  | cons p t ih =>
    rw [List.map_cons, List.nodup_cons] at hnd
    by_cases hk : p.1 = k
    · have hb : (p.1 == k) = true := icao_beq_iff.2 hk
      unfold alRemove
      rw [show List.eraseP (fun q => q.1 == k) (p :: t) = t by
        simp [List.eraseP_cons, hb]]
      constructor
      · simp
      · apply alGet_eq_none_of_not_mem
        rw [← hk]
        exact hnd.1
    · have hb : (p.1 == k) = false := by
        rw [show ((p.1 == k) = false) ↔ ¬((p.1 == k) = true) by simp, icao_beq_iff]
        exact hk
      unfold alGet at hget
      rw [List.find?_cons_of_neg _ (by simp [hb])] at hget
      have ih2 := ih hget hnd.2
      unfold alRemove at ih2 ⊢
      rw [show List.eraseP (fun q => q.1 == k) (p :: t) =
          p :: List.eraseP (fun q => q.1 == k) t by
        simp [List.eraseP_cons, hb]]
      constructor
      · rw [List.length_cons, List.length_cons]
        omega
      · unfold alGet
        rw [List.find?_cons_of_neg _ (by simp [hb])]
        exact ih2.2

/-- C9: `is_known` is a mutating lookup.  (1) When the cache holds the
address with a timestamp older than the TTL, the call returns `false`,
removes the entry (so the address no longer resolves), and shrinks `len()`
by exactly one.  (2) A lookup of an absent address leaves the cache
unchanged.  (3) A lookup of a fresh address returns `true` and leaves the
cache unchanged.  The no-duplicate-keys hypothesis is the `HashMap`
representation invariant of the association-list model. -/
theorem C9_isKnown_mutating_lookup (c : IcaoCache) (icao : Icao) (ts : ℚ)
    (hnd : (c.cache.map Prod.fst).Nodup) :
    (∀ lastSeen, alGet c.cache icao = some lastSeen → c.ttl < ts - lastSeen →
      c.isKnown icao ts = (false, ⟨c.ttl, alRemove c.cache icao⟩) ∧
      (alRemove c.cache icao).length + 1 = c.cache.length ∧
      alGet (alRemove c.cache icao) icao = none) ∧
    (alGet c.cache icao = none → c.isKnown icao ts = (false, c)) ∧
    (∀ lastSeen, alGet c.cache icao = some lastSeen → ts - lastSeen ≤ c.ttl →
      c.isKnown icao ts = (true, c)) := by
  refine ⟨?_, ?_, ?_⟩
  · intro lastSeen hget hold
    have hrem := alRemove_of_get hget hnd
    refine ⟨?_, hrem.1, hrem.2⟩
    unfold IcaoCache.isKnown
    rw [hget]
    simp only [if_neg (by linarith : ¬ts - lastSeen ≤ c.ttl)]
  · intro hget
    unfold IcaoCache.isKnown
    rw [hget]
  · intro lastSeen hget hfresh
    unfold IcaoCache.isKnown
    rw [hget]
    simp only [if_pos hfresh]

/-- Witness for C9 at a concrete one-entry cache (stale entry: TTL 60,
stored at t=0, queried at t=100). -/
theorem C9_isKnown_mutating_lookup_witness :
    (IcaoCache.mk 60 [((1, 2, 3), 0)]).isKnown (1, 2, 3) 100 =
      (false, IcaoCache.mk 60 []) ∧
    (IcaoCache.mk 60 [((1, 2, 3), 0)]).len = 1 := by
  have h := C9_isKnown_mutating_lookup (IcaoCache.mk 60 [((1, 2, 3), 0)]) (1, 2, 3) 100
    (by decide)
  have h1 := (h.1 0 rfl (by norm_num [IcaoCache.mk])).1
  exact ⟨by rw [h1]; rfl, rfl⟩

/-! #### Branch characterization of `parse_frame` -/

theorem correctionStep_corrected {df : ℕ} {raw t : List ℕ} {crc : ℕ}
    (h : (correctionStep df raw t crc).2.2 = true) :
    ∃ f, tryFix (toUpperBytes t) = some f ∧
      hexDecode f = some (correctionStep df raw t crc).1 := by
  by_cases hz : crc = 0
  · exfalso
    unfold correctionStep at h
    rw [if_pos hz] at h
    exact Bool.noConfusion h
  by_cases hdf : df = 17 ∨ df = 18
  · unfold correctionStep at h ⊢
    rw [if_neg hz, if_pos hdf] at h ⊢
    cases htf : tryFix (toUpperBytes t) with
    | none =>
      rw [htf] at h
      exact Bool.noConfusion h
    | some f =>
      rw [htf] at h
      cases hfr : hexDecode f with
      | none => simp [hfr] at h
      | some fr =>
        refine ⟨f, rfl, ?_⟩
        simp [hfr]
  · exfalso
    unfold correctionStep at h
    rw [if_neg hz, if_neg hdf] at h
    exact Bool.noConfusion h

theorem correctionStep_try {df : ℕ} {raw t : List ℕ} {crc : ℕ}
    (hnz : crc ≠ 0) (hdf : df = 17 ∨ df = 18) :
    (∀ f, tryFix (toUpperBytes t) = some f →
      ∃ fr, hexDecode f = some fr ∧ correctionStep df raw t crc = (fr, true, true)) ∧
    (tryFix (toUpperBytes t) = none → correctionStep df raw t crc = (raw, false, false)) := by
  unfold correctionStep
  rw [if_neg hnz, if_pos hdf]
  constructor
  · intro f hf
    rw [hf]
    obtain ⟨_, d, _, hd, _⟩ := tryFix_spec hf
    refine ⟨d, hd, ?_⟩
    simp [hd]
  · intro hf
    rw [hf]

theorem correctionStep_no_attempt {df : ℕ} {raw t : List ℕ} {crc : ℕ}
    (hnz : crc ≠ 0) (hdf : ¬(df = 17 ∨ df = 18)) :
    correctionStep df raw t crc = (raw, false, false) := by
  unfold correctionStep
  rw [if_neg hnz, if_neg hdf]

/-- Characterization of every successful `parse_frame` call: the decoded
bytes, the `df` extraction, and — per branch — how the frame's `raw`,
`crc_ok`, `corrected` fields are produced. -/
theorem parseFrame_some {hexStr : List ℕ} {ts : ℚ} {sig : Option ℚ}
    {v : Bool} {c : IcaoCache} {frame : ModeFrame} {c' : IcaoCache}
    (h : parseFrame hexStr ts sig v c = (some frame, c')) :
    ∃ raw, hexDecode (trimBytes hexStr) = some raw ∧
      frame.df = (raw.getD 0 0 >>> 3) &&& 31 ∧
      ((([11, 17, 18] : List ℕ).contains frame.df = true ∧
        frame.raw = (correctionStep frame.df raw (trimBytes hexStr) (crc24 raw)).1 ∧
        frame.crcOk = (correctionStep frame.df raw (trimBytes hexStr) (crc24 raw)).2.1 ∧
        frame.corrected = (correctionStep frame.df raw (trimBytes hexStr) (crc24 raw)).2.2) ∨
      (([0, 4, 5, 16, 20, 21] : List ℕ).contains frame.df = true ∧
        frame.raw = raw ∧ frame.crcOk = true ∧ frame.corrected = false)) := by
  simp only [parseFrame] at h
  split at h
  · exact absurd (congrArg Prod.fst h) (by simp)
  split at h
  · exact absurd (congrArg Prod.fst h) (by simp)
  rename_i raw hraw
  split at h
  · exact absurd (congrArg Prod.fst h) (by simp)
  rename_i bits hbits
  split at h
  · exact absurd (congrArg Prod.fst h) (by simp)
  split at h
  · -- explicit-ICAO branch
    rename_i hmem
    have h1 := congrArg Prod.fst h
    simp only at h1
    injection h1 with h1
    refine ⟨raw, hraw, ?_, ?_⟩
    · rw [← h1]
    · left
      rw [← h1]
      exact ⟨hmem, rfl, rfl, rfl⟩
  split at h
  · -- residual-ICAO branch
    rename_i hmem
    split at h
    · split at h
      · have h1 := congrArg Prod.fst h
        simp only at h1
        injection h1 with h1
        refine ⟨raw, hraw, ?_, ?_⟩
        · rw [← h1]
        · right
          rw [← h1]
          exact ⟨hmem, rfl, rfl, rfl⟩
      · exact absurd (congrArg Prod.fst h) (by simp)
    · have h1 := congrArg Prod.fst h
      simp only at h1
      injection h1 with h1
      refine ⟨raw, hraw, ?_, ?_⟩
      · rw [← h1]
      · right
        rw [← h1]
        exact ⟨hmem, rfl, rfl, rfl⟩
  · exact absurd (congrArg Prod.fst h) (by simp)

/-! #### C2: corrected frames have residual 0 and an untouched DF field -/

/-- C2: for every hex string accepted by `parse_frame` with
`corrected = true`, the CRC-24 residual of the returned (post-correction)
message bytes is 0, and the downlink-format field (bit positions 0–4, the
top five bits of byte 0) is identical between the input bytes and the
returned bytes. -/
theorem C2_corrected_crc_and_df {hexStr : List ℕ} {ts : ℚ} {sig : Option ℚ}
    {v : Bool} {c : IcaoCache} {frame : ModeFrame} {c' : IcaoCache}
    (h : parseFrame hexStr ts sig v c = (some frame, c'))
    (hcor : frame.corrected = true) :
    crc24 frame.raw = 0 ∧
    ∀ raw0, hexDecode hexStr = some raw0 →
      raw0.getD 0 0 >>> 3 = frame.raw.getD 0 0 >>> 3 := by
  obtain ⟨raw, hraw, _, hbranch⟩ := parseFrame_some h
  rcases hbranch with ⟨_, hr, _, hc⟩ | ⟨_, _, _, hc⟩
  · rw [hc] at hcor
    obtain ⟨f, hf, hdec⟩ := correctionStep_corrected hcor
    obtain ⟨d0, d, hd0, hd, hcrc, hdf, _⟩ := tryFix_spec hf
    rw [hexDecode_toUpper, hexDecode_trimBytes] at hd0
    rw [hd] at hdec
    injection hdec with hdec
    constructor
    · rw [hr, ← hdec]; exact hcrc
    · intro raw0 hraw0
      rw [hraw0] at hd0
      injection hd0 with hd0
      rw [hr, ← hdec, hd0]
      exact hdf.symm
  · rw [hc] at hcor
    cases hcor

/-- Evaluation of `parse_frame` on the corrupted DF17 frame: the single-bit
error is corrected back to the valid frame. -/
theorem parse_corrupt17_eval :
    parseFrame corrupt17Hex 1 none false ⟨60, []⟩ =
      (some { df := 17, icao := (72, 64, 214), raw := valid17Bytes,
              timestamp := 1, signalLevel := none, msgBits := 112,
              crcOk := true, corrected := true }, ⟨60, []⟩) := by
  rfl

/-- Witness for C2 at the corrupted DF17 frame. -/
theorem C2_corrected_crc_and_df_witness :
    ∃ frame c', parseFrame corrupt17Hex 1 none false ⟨60, []⟩ = (some frame, c') ∧
      frame.corrected = true ∧ crc24 frame.raw = 0 ∧
      ∀ raw0, hexDecode corrupt17Hex = some raw0 →
        raw0.getD 0 0 >>> 3 = frame.raw.getD 0 0 >>> 3 := by
  obtain ⟨h1, h2⟩ := C2_corrected_crc_and_df parse_corrupt17_eval rfl
  exact ⟨_, _, parse_corrupt17_eval, rfl, h1, h2⟩

/-! #### C3: correction behaviour for formats 11/17/18 -/

/-- C3 (amended): for a parsed frame whose input bytes have a nonzero CRC
residual, `parse_frame` attempts single/double-bit correction only for
formats 17 and 18: there the result mirrors `try_fix` (success gives
`corrected = true` and `crc_ok = true`; failure gives `crc_ok = false`).
For format 11 no correction is attempted and the frame is returned with
`crc_ok = false`, `corrected = false`. -/
theorem C3_correction_formats {hexStr : List ℕ} {ts : ℚ} {sig : Option ℚ}
    {v : Bool} {c : IcaoCache} {frame : ModeFrame} {c' : IcaoCache}
    (h : parseFrame hexStr ts sig v c = (some frame, c'))
    {raw0 : List ℕ} (hraw0 : hexDecode hexStr = some raw0)
    (hres : crc24 raw0 ≠ 0) :
    ((frame.df = 17 ∨ frame.df = 18) →
      ((∃ f, tryFix (toUpperBytes (trimBytes hexStr)) = some f) →
        frame.corrected = true ∧ frame.crcOk = true) ∧
      (tryFix (toUpperBytes (trimBytes hexStr)) = none →
        frame.crcOk = false ∧ frame.corrected = false)) ∧
    (frame.df = 11 → frame.crcOk = false ∧ frame.corrected = false) := by
  obtain ⟨raw, hraw, hdf, hbranch⟩ := parseFrame_some h
  rw [hexDecode_trimBytes, hraw0] at hraw
  injection hraw with hraw
  subst hraw
  rcases hbranch with ⟨hmem, hr, hok, hc⟩ | ⟨hmem, hr, hok, hc⟩
  · constructor
    · intro hdf1718
      have hcs := @correctionStep_try frame.df raw0 (trimBytes hexStr) (crc24 raw0) hres hdf1718
      constructor
      · rintro ⟨f, hf⟩
        obtain ⟨fr, hfr, heq⟩ := hcs.1 f hf
        constructor
        · rw [hc, heq]
        · rw [hok, heq]
      · intro hnone
        constructor
        · rw [hok, hcs.2 hnone]
        · rw [hc, hcs.2 hnone]
    · intro h11
      have hno : ¬(frame.df = 17 ∨ frame.df = 18) := by
        rw [h11]
        rintro (hcon | hcon) <;> norm_num at hcon
      constructor
      · rw [hok, correctionStep_no_attempt hres hno]
      · rw [hc, correctionStep_no_attempt hres hno]
  · have hlist : frame.df = 0 ∨ frame.df = 4 ∨ frame.df = 5 ∨ frame.df = 16 ∨
        frame.df = 20 ∨ frame.df = 21 := by
      simpa using hmem
    constructor
    · intro hdf1718
      exfalso
      rcases hdf1718 with hx17 | hx17 <;> rw [hx17] at hlist <;>
        rcases hlist with hx | hx | hx | hx | hx | hx <;> norm_num at hx
    · intro h11
      exfalso
      rw [h11] at hlist
      rcases hlist with hx | hx | hx | hx | hx | hx <;> norm_num at hx

/-- C3 counterexample: a DF11 frame with a nonzero residual that a
single-bit fix would repair (`try_fix` succeeds on its hex) is returned by
`parse_frame` with `corrected = false` and `crc_ok = false` — no correction
is attempted for format 11. -/
theorem C3_counterexample :
    parseFrameUncached corrupt11Hex 0 none =
      some { df := 11, icao := (72, 64, 214), raw := corrupt11Bytes,
             timestamp := 0, signalLevel := none, msgBits := 56,
             crcOk := false, corrected := false } ∧
    crc24 corrupt11Bytes ≠ 0 ∧
    tryFix (toUpperBytes (trimBytes corrupt11Hex)) = some validDf11Hex := by
  refine ⟨rfl, by decide, rfl⟩

/-- Witness for C3 (amended) at the corrupted DF17 frame: `try_fix`
succeeds, and the parsed frame indeed carries `corrected = true`,
`crc_ok = true`. -/
theorem C3_correction_formats_witness :
    ∃ frame c', parseFrame corrupt17Hex 1 none false ⟨60, []⟩ = (some frame, c') ∧
      frame.corrected = true ∧ frame.crcOk = true := by
  have h := C3_correction_formats parse_corrupt17_eval rfl
    (by decide)
  have h2 := (h.1 (Or.inl rfl)).1 ⟨validDf17Hex, rfl⟩
  exact ⟨_, _, parse_corrupt17_eval, h2.1, h2.2⟩

/-! #### C4: frames with `crc_ok = false` are never decoded -/

/-- C4: for every `ModeFrame` with `crc_ok = false`, `decode` returns no
message, regardless of downlink format, type code, or payload bytes. -/
theorem C4_no_decode_without_crc (frame : ModeFrame) (h : frame.crcOk = false) :
    decode frame = none := by
  unfold decode
  rw [h]
  simp

/-- Witness for C4 at a concrete DF17 frame with `crc_ok = false`. -/
theorem C4_no_decode_without_crc_witness :
    decode { df := 17, icao := (72, 64, 214), raw := valid17Bytes, timestamp := 1,
             signalLevel := none, msgBits := 112, crcOk := false,
             corrected := false } = none :=
  C4_no_decode_without_crc _ rfl

/-- C7 counterexample: the claim says filler ('#') alphabet positions render
as a space (byte 32); the code renders them as the alphabet entry itself —
byte 35, `'#'` — because every 6-bit index is within the 64-entry alphabet
and the space fallback is unreachable. -/
theorem C7_counterexample :
    decodeIdentification frameC7 =
      some { icao := (0, 0, 0), callsign := [35, 35, 35, 35, 35, 35, 35, 35],
             category := 0, timestamp := 0 } ∧
    CALLSIGN_CHARSET.getD 0 0 = 35 ∧ (35 : ℕ) ≠ 32 := by
  refine ⟨rfl, rfl, by decide⟩

/-- C7 (amended): every decoded callsign character is the alphabet entry at
its 6-bit index — all indices are in range, so the space fallback for
out-of-range indices is dead and `'#'` filler entries appear literally. -/
theorem C7_callsign_charset {frame : ModeFrame} {msg : IdentificationMsg}
    (h : decodeIdentification frame = some msg) :
    msg.callsign.length = 8 ∧
    ∀ i, i < 8 → msg.callsign.getD i 0 =
      CALLSIGN_CHARSET.getD ((beBytes frame.me >>> (42 - i * 6)) &&& 63) 0 := by
  unfold decodeIdentification at h
  cases htc : frame.typeCode with
  | none => rw [htc] at h; cases h
  | some tc =>
    rw [htc] at h
    simp only at h
    split at h
    · cases h
    split at h
    · cases h
    injection h with h
    have hcs : msg.callsign = (List.range 8).map (fun i =>
        let idx := (beBytes frame.me >>> (42 - i * 6)) &&& 0x3F
        if idx < CALLSIGN_CHARSET.length then CALLSIGN_CHARSET.getD idx 0 else 32) := by
      rw [← h]
    constructor
    · rw [hcs]
      simp
    · intro i hi
      rw [hcs]
      have hidx : ∀ j : ℕ, (beBytes frame.me >>> (42 - j * 6)) &&& 63 < 64 := by
        intro j
        have h15 : (63 : ℕ) = 2 ^ 6 - 1 := by norm_num
        rw [h15, Nat.and_pow_two_sub_one_eq_mod]
        omega
      rw [List.getD_eq_getElem?_getD, List.getElem?_map, List.getElem?_range hi]
      simp only [Option.map_some', Option.getD_some]
      rw [if_pos (by simpa [CALLSIGN_CHARSET] using hidx i)]

/-- Witness for C7 (amended) at the concrete all-filler frame. -/
theorem C7_callsign_charset_witness :
    ∃ msg, decodeIdentification frameC7 = some msg ∧
      msg.callsign.length = 8 ∧
      msg.callsign.getD 0 0 =
        CALLSIGN_CHARSET.getD ((beBytes frameC7.me >>> 42) &&& 63) 0 := by
  have heq : decodeIdentification frameC7 =
      some { icao := (0, 0, 0), callsign := [35, 35, 35, 35, 35, 35, 35, 35],
             category := 0, timestamp := 0 } := rfl
  obtain ⟨h1, h2⟩ := C7_callsign_charset heq
  exact ⟨_, heq, h1, by simpa using h2 0 (by norm_num)⟩

/-! #### C10: undecodable frames only bump `total_frames` -/

/-- C10: when the decoder produces no message, `Tracker::update` returns
`(None, [])` and the only state change is `total_frames + 1` — the
aircraft map, `last_stored`, and all other counters are untouched. -/
theorem C10_no_decode_only_counts (lk : IcaoLookups) (t : Tracker)
    (frame : ModeFrame) (h : decode frame = none) :
    Tracker.update lk t frame =
      ({ t with totalFrames := t.totalFrames + 1 }, none, []) := by
  unfold Tracker.update Tracker.updateWith
  rw [h]

/-- Witness for C10 at a concrete `crc_ok = false` frame and a fresh
tracker (with trivial `icao.rs` lookup tables). -/
theorem C10_no_decode_only_counts_witness :
    Tracker.update ⟨fun _ => none, fun _ => none, fun _ _ => false⟩
      (Tracker.new none none none none 2)
      { df := 17, icao := (72, 64, 214), raw := valid17Bytes, timestamp := 1,
        signalLevel := none, msgBits := 112, crcOk := false,
        corrected := false } =
      ({ Tracker.new none none none none 2 with
          totalFrames := (Tracker.new none none none none 2).totalFrames + 1 },
       none, []) :=
  C10_no_decode_only_counts _ _ _ rfl

/-! #### C5 machinery: `posTimes` and `positionStep` facts -/

theorem posTimes_append (a b : List TrackEvent) (i : Icao) :
    posTimes (a ++ b) i = posTimes a i ++ posTimes b i :=
  List.filterMap_append _ _ _

theorem posTimes_new (j : Icao) (co re : Option (List ℕ)) (mi : Bool) (ts : ℚ)
    (i : Icao) : posTimes [TrackEvent.newAircraft j co re mi ts] i = [] := rfl

theorem posTimes_aU (j : Icao) (ts : ℚ) (i : Icao) :
    posTimes [TrackEvent.aircraftUpdate j ts] i = [] := rfl

theorem posTimes_sU (j : Icao) (ci : Option ℤ) (cs sq : Option (List ℕ))
    (al : Option ℤ) (ts : ℚ) (i : Icao) :
    posTimes [TrackEvent.sightingUpdate j ci cs sq al ts] i = [] := rfl

theorem posTimes_pU (j : Icao) (lat lon : ℝ) (al : Option ℤ) (sp hd : Option ℝ)
    (vr : Option ℤ) (ri : Option ℤ) (ts : ℚ) (i : Icao) :
    posTimes [TrackEvent.positionUpdate j lat lon al sp hd vr ri ts] i =
      if j = i then [ts] else [] := by
  by_cases h : j = i <;> simp [posTimes, List.filterMap, h]

/-- Appending to a history and capping it at `MAX_HISTORY` keeps the new
entry as the last element. -/
theorem hist_cap_getLast {α : Type} (l : List α) (e : α) :
    (if (l ++ [e]).length > MAX_HISTORY then
      (l ++ [e]).drop ((l ++ [e]).length - MAX_HISTORY)
    else l ++ [e]).getLast? = some e := by
  split
  · rename_i hlen
    rw [List.length_append] at hlen
    rw [List.drop_append_of_le_length (by
      rw [List.length_append]
      simp only [List.length_cons, List.length_nil, MAX_HISTORY] at *
      omega)]
    exact List.getLast?_concat _
  · exact List.getLast?_concat _

theorem positionStep_resolve_none {resolve : AircraftState → Option ℝ → Option ℝ →
      Option (ℝ × ℝ)} {t : Tracker} {ac : AircraftState} {m : PositionMsg}
    {icao : Icao} {ts : ℚ}
    (h : resolve (storeCpr ac m) t.refLat t.refLon = none) :
    positionStep resolve t ac m icao ts = (storeCpr ac m, t, []) := by
  simp only [positionStep, h]

theorem positionStep_emit {resolve : AircraftState → Option ℝ → Option ℝ →
      Option (ℝ × ℝ)} {t : Tracker} {ac : AircraftState} {m : PositionMsg}
    {icao : Icao} {ts : ℚ} {lat lon : ℝ}
    (h : resolve (storeCpr ac m) t.refLat t.refLon = some (lat, lon))
    (hl : t.lastStored icao = none ∨
      ∃ last, t.lastStored icao = some last ∧ t.minPositionInterval ≤ ts - last) :
    ∃ ac', positionStep resolve t ac m icao ts =
      (ac',
       { t with positionDecodes := t.positionDecodes + 1,
                lastStored := fun k => if k = icao then some ts else t.lastStored k },
       [TrackEvent.positionUpdate icao lat lon ac'.altitudeFt ac'.speedKts
          ac'.headingDeg ac'.verticalRateFpm t.receiverId ts]) ∧
      ac'.positionHistory.getLast? = some (ts, lat, lon, (storeCpr ac m).altitudeFt) := by
  rcases hl with hl | ⟨last, hl, hge⟩
  · simp only [positionStep, h, hl]
    exact ⟨_, rfl, hist_cap_getLast _ _⟩
  · simp only [positionStep, h, hl]
    rw [if_pos hge]
    exact ⟨_, rfl, hist_cap_getLast _ _⟩

theorem positionStep_skip {resolve : AircraftState → Option ℝ → Option ℝ →
      Option (ℝ × ℝ)} {t : Tracker} {ac : AircraftState} {m : PositionMsg}
    {icao : Icao} {ts : ℚ} {lat lon : ℝ} {last : ℚ}
    (h : resolve (storeCpr ac m) t.refLat t.refLon = some (lat, lon))
    (hl : t.lastStored icao = some last)
    (hlt : ¬t.minPositionInterval ≤ ts - last) :
    ∃ ac', positionStep resolve t ac m icao ts =
      (ac',
       { t with positionDecodes := t.positionDecodes + 1,
                positionsSkipped := t.positionsSkipped + 1 },
       []) ∧
      ac'.positionHistory.getLast? = some (ts, lat, lon, (storeCpr ac m).altitudeFt) := by
  simp only [positionStep, h, hl]
  rw [if_neg hlt]
  exact ⟨_, rfl, hist_cap_getLast _ _⟩

theorem ensureAircraft_fields (lk : IcaoLookups) (t : Tracker) (j : Icao)
    (ts : ℚ) :
    (ensureAircraft lk t j ts).1.lastStored = t.lastStored ∧
    (ensureAircraft lk t j ts).1.minPositionInterval = t.minPositionInterval ∧
    (ensureAircraft lk t j ts).1.refLat = t.refLat ∧
    (ensureAircraft lk t j ts).1.refLon = t.refLon ∧
    (∀ i, posTimes (ensureAircraft lk t j ts).2 i = []) := by
  unfold ensureAircraft
  split <;> exact ⟨rfl, rfl, rfl, rfl, fun i => rfl⟩

/-- The downsampling content of one `positionStep`: either no
`position-update` event is emitted for an address and its `last_stored`
entry is untouched, or exactly one event is emitted at the message
timestamp, `last_stored` is set to it, and the previous `last_stored` for
that address was either absent or at least `min_position_interval`
earlier. -/
theorem positionStep_step (resolve : AircraftState → Option ℝ → Option ℝ →
      Option (ℝ × ℝ)) (t : Tracker) (ac : AircraftState) (m : PositionMsg)
    (j : Icao) (ts : ℚ) (icao : Icao) :
    (positionStep resolve t ac m j ts).2.1.minPositionInterval =
      t.minPositionInterval ∧
    ((posTimes (positionStep resolve t ac m j ts).2.2 icao = [] ∧
      (positionStep resolve t ac m j ts).2.1.lastStored icao =
        t.lastStored icao) ∨
     (∃ ts', posTimes (positionStep resolve t ac m j ts).2.2 icao = [ts'] ∧
       (positionStep resolve t ac m j ts).2.1.lastStored icao = some ts' ∧
       (t.lastStored icao = none ∨
         ∃ last, t.lastStored icao = some last ∧
           t.minPositionInterval ≤ ts' - last))) := by
  cases hres : resolve (storeCpr ac m) t.refLat t.refLon with
  | none =>
    rw [positionStep_resolve_none hres]
    exact ⟨rfl, Or.inl ⟨rfl, rfl⟩⟩
  | some p =>
    obtain ⟨lat, lon⟩ := p
    cases hl : t.lastStored j with
    | none =>
      obtain ⟨ac', heq, _⟩ := positionStep_emit hres (Or.inl hl)
      rw [heq]
      refine ⟨rfl, ?_⟩
      by_cases hij : icao = j
      · subst hij
        right
        exact ⟨ts, by rw [posTimes_pU]; simp, by simp, Or.inl hl⟩
      · left
        constructor
        · rw [posTimes_pU, if_neg (fun he => hij he.symm)]
        · simp only
          rw [if_neg hij]
    | some last =>
      by_cases hge : t.minPositionInterval ≤ ts - last
      · obtain ⟨ac', heq, _⟩ := positionStep_emit hres (Or.inr ⟨last, hl, hge⟩)
        rw [heq]
        refine ⟨rfl, ?_⟩
        by_cases hij : icao = j
        · subst hij
          right
          exact ⟨ts, by rw [posTimes_pU]; simp, by simp, Or.inr ⟨last, hl, hge⟩⟩
        · left
          constructor
          · rw [posTimes_pU, if_neg (fun he => hij he.symm)]
          · simp only
            rw [if_neg hij]
      · obtain ⟨ac', heq, _⟩ := positionStep_skip hres hl hge
        rw [heq]
        exact ⟨rfl, Or.inl ⟨rfl, rfl⟩⟩

theorem posTimes_trail (j : Icao) (ts0 : ℚ) (ci : Option ℤ)
    (cs sq : Option (List ℕ)) (al : Option ℤ) (i : Icao) :
    posTimes [TrackEvent.aircraftUpdate j ts0,
      TrackEvent.sightingUpdate j ci cs sq al ts0] i = [] := rfl

/-- Lifting the per-branch downsampling description through `assemble`. -/
theorem assemble_step {t t0 : Tracker} (ne : List TrackEvent) (ci : Option ℤ)
    (j : Icao) (ts0 : ℚ) (step : AircraftState × Tracker × List TrackEvent)
    (icao : Icao)
    (hne : posTimes ne icao = [])
    (h0ls : t0.lastStored = t.lastStored)
    (h0min : t0.minPositionInterval = t.minPositionInterval)
    (hmin : step.2.1.minPositionInterval = t0.minPositionInterval)
    (hdisj : (posTimes step.2.2 icao = [] ∧
        step.2.1.lastStored icao = t0.lastStored icao) ∨
      (∃ ts, posTimes step.2.2 icao = [ts] ∧
        step.2.1.lastStored icao = some ts ∧
        (t0.lastStored icao = none ∨
          ∃ last, t0.lastStored icao = some last ∧
            t0.minPositionInterval ≤ ts - last))) :
    (assemble ne ci j ts0 step).1.minPositionInterval = t.minPositionInterval ∧
    ((posTimes (assemble ne ci j ts0 step).2 icao = [] ∧
      (assemble ne ci j ts0 step).1.lastStored icao = t.lastStored icao) ∨
     (∃ ts, posTimes (assemble ne ci j ts0 step).2 icao = [ts] ∧
       (assemble ne ci j ts0 step).1.lastStored icao = some ts ∧
       (t.lastStored icao = none ∨
         ∃ last, t.lastStored icao = some last ∧
           t.minPositionInterval ≤ ts - last))) := by
  unfold assemble
  constructor
  · exact hmin.trans h0min
  · have hev : posTimes (ne ++ step.2.2 ++
        [TrackEvent.aircraftUpdate j ts0,
         TrackEvent.sightingUpdate j ci step.1.callsign step.1.squawk
           step.1.altitudeFt ts0]) icao = posTimes step.2.2 icao := by
      rw [posTimes_append, posTimes_append, hne, posTimes_trail]
      simp
    rcases hdisj with ⟨hp1, hp2⟩ | ⟨ts, hp1, hp2, hp3⟩
    · left
      exact ⟨hev.trans hp1, hp2.trans (congrFun h0ls icao)⟩
    · right
      refine ⟨ts, hev.trans hp1, hp2, ?_⟩
      rcases hp3 with hp3 | ⟨last, hp4, hp5⟩
      · exact Or.inl ((congrFun h0ls icao).symm.trans hp3)
      · exact Or.inr ⟨last, (congrFun h0ls icao).symm.trans hp4,
          h0min ▸ hp5⟩

/-- The downsampling description of one full `applyMsg` call. -/
theorem applyMsg_step (lk : IcaoLookups)
    (resolve : AircraftState → Option ℝ → Option ℝ → Option (ℝ × ℝ))
    (t : Tracker) (msg : DecodedMsg) (icao : Icao) :
    (Tracker.applyMsg lk resolve t msg).1.minPositionInterval =
      t.minPositionInterval ∧
    ((posTimes (Tracker.applyMsg lk resolve t msg).2 icao = [] ∧
      (Tracker.applyMsg lk resolve t msg).1.lastStored icao =
        t.lastStored icao) ∨
     (∃ ts, posTimes (Tracker.applyMsg lk resolve t msg).2 icao = [ts] ∧
       (Tracker.applyMsg lk resolve t msg).1.lastStored icao = some ts ∧
       (t.lastStored icao = none ∨
         ∃ last, t.lastStored icao = some last ∧
           t.minPositionInterval ≤ ts - last))) := by
  obtain ⟨h0ls, h0min, _, _, h0pt⟩ := ensureAircraft_fields lk t msg.icao msg.timestamp
  cases msg with
  | identification m =>
    simp only [Tracker.applyMsg]
    exact assemble_step _ _ _ _ _ icao (h0pt icao) h0ls h0min rfl
      (Or.inl ⟨rfl, rfl⟩)
  | position m =>
    simp only [Tracker.applyMsg]
    refine assemble_step _ _ _ _ _ icao (h0pt icao) h0ls h0min ?_ ?_
    · exact (positionStep_step resolve _ _ m _ _ icao).1
    · exact (positionStep_step resolve _ _ m _ _ icao).2
  | velocity m =>
    simp only [Tracker.applyMsg]
    exact assemble_step _ _ _ _ _ icao (h0pt icao) h0ls h0min rfl
      (Or.inl ⟨rfl, rfl⟩)
  | altitude m =>
    simp only [Tracker.applyMsg]
    exact assemble_step _ _ _ _ _ icao (h0pt icao) h0ls h0min rfl
      (Or.inl ⟨rfl, rfl⟩)
  | squawk m =>
    simp only [Tracker.applyMsg]
    exact assemble_step _ _ _ _ _ icao (h0pt icao) h0ls h0min rfl
      (Or.inl ⟨rfl, rfl⟩)

/-- The downsampling description of one full `updateWith` call. -/
theorem updateWith_step (lk : IcaoLookups)
    (resolve : AircraftState → Option ℝ → Option ℝ → Option (ℝ × ℝ))
    (t : Tracker) (frame : ModeFrame) (icao : Icao) :
    (Tracker.updateWith lk resolve t frame).1.minPositionInterval =
      t.minPositionInterval ∧
    ((posTimes (Tracker.updateWith lk resolve t frame).2.2 icao = [] ∧
      (Tracker.updateWith lk resolve t frame).1.lastStored icao =
        t.lastStored icao) ∨
     (∃ ts, posTimes (Tracker.updateWith lk resolve t frame).2.2 icao = [ts] ∧
       (Tracker.updateWith lk resolve t frame).1.lastStored icao = some ts ∧
       (t.lastStored icao = none ∨
         ∃ last, t.lastStored icao = some last ∧
           t.minPositionInterval ≤ ts - last))) := by
  unfold Tracker.updateWith
  cases hd : decode frame with
  | none => exact ⟨rfl, Or.inl ⟨rfl, rfl⟩⟩
  | some msg =>
    exact applyMsg_step lk resolve
      { t with totalFrames := t.totalFrames + 1, validFrames := t.validFrames + 1 }
      msg icao

/-- Run-level throttling invariant: along any frame sequence, the stored
`last_stored` timestamp always equals the last element of the emitted
`position-update` timestamps (seeded with any pre-existing stored value),
and consecutive emitted timestamps for one address are at least
`min_position_interval` apart. -/
theorem runUpdates_invariant (lk : IcaoLookups)
    (resolve : AircraftState → Option ℝ → Option ℝ → Option (ℝ × ℝ))
    (icao : Icao) (mpi : ℚ) (frames : List ModeFrame) :
    ∀ t : Tracker, t.minPositionInterval = mpi →
      (Tracker.runUpdates lk resolve t frames).1.minPositionInterval = mpi ∧
      List.Chain' (fun a b => mpi ≤ b - a)
        ((t.lastStored icao).toList ++
          posTimes (Tracker.runUpdates lk resolve t frames).2 icao) ∧
      (Tracker.runUpdates lk resolve t frames).1.lastStored icao =
        ((t.lastStored icao).toList ++
          posTimes (Tracker.runUpdates lk resolve t frames).2 icao).getLast? := by
  induction frames with
  | nil =>
    intro t hmin
    refine ⟨hmin, ?_, ?_⟩
    · cases t.lastStored icao <;> simp [Tracker.runUpdates, posTimes]
    · cases h : t.lastStored icao <;>
        simp [Tracker.runUpdates, posTimes, h]
  | cons f fs ih =>
    intro t hmin
    obtain ⟨hm, hdisj⟩ := updateWith_step lk resolve t f icao
    obtain ⟨ihm, ihc, ihl⟩ :=
      ih (Tracker.updateWith lk resolve t f).1 (hm.trans hmin)
    have hrun : Tracker.runUpdates lk resolve t (f :: fs) =
        ((Tracker.runUpdates lk resolve
            (Tracker.updateWith lk resolve t f).1 fs).1,
         (Tracker.updateWith lk resolve t f).2.2 ++
           (Tracker.runUpdates lk resolve
             (Tracker.updateWith lk resolve t f).1 fs).2) := rfl
    rw [hrun]
    simp only [posTimes_append]
    rcases hdisj with ⟨hp1, hp2⟩ | ⟨ts, hp1, hp2, hp3⟩
    · rw [hp1]
      rw [hp2] at ihc ihl
      simp only [List.nil_append]
      exact ⟨ihm, ihc, ihl⟩
    · rw [hp1]
      rw [hp2] at ihc ihl
      refine ⟨ihm, ?_, ?_⟩
      · rcases hp3 with h0 | ⟨last, hlast, hgap⟩
        · rw [h0]
          simpa using ihc
        · rw [hlast]
          simp only [Option.toList_some, List.singleton_append,
            List.cons_append, List.nil_append]
          rw [List.chain'_cons]
          refine ⟨hmin ▸ hgap, ?_⟩
          simpa using ihc
      · rw [ihl]
        simp only [Option.toList_some, List.singleton_append,
          List.cons_append, List.nil_append]
        rw [List.getLast?_append_of_ne_nil (t.lastStored icao).toList
          (List.cons_ne_nil ts _)]

/-- C5: (a) over any sequence of `Tracker::update` calls starting from a
fresh tracker, consecutive `position-update` events for one address are at
least `min_position_interval` seconds apart (so an event is emitted only
when no prior one for that address lies within the interval, and the
first always is); (b) within the position branch, an event is emitted
exactly when the address has no stored emission time or the gap reaches
the interval; (c) every successful CPR resolve, emitted or skipped,
appends the new fix as the last entry of the in-memory position history. -/
theorem C5_position_throttling_and_history
    (lk : IcaoLookups) (rid cid : Option ℤ) (rlat rlon : Option ℝ) (mpi : ℚ)
    (frames : List ModeFrame)
    (resolve : AircraftState → Option ℝ → Option ℝ → Option (ℝ × ℝ))
    (t : Tracker) (ac : AircraftState) (m : PositionMsg) (icao : Icao)
    (ts : ℚ) (lat lon : ℝ)
    (hres : resolve (storeCpr ac m) t.refLat t.refLon = some (lat, lon)) :
    List.Chain' (fun a b => mpi ≤ b - a)
      (posTimes (Tracker.runUpdates lk
        (fun a rla rlo => tryCprDecode a rla rlo)
        (Tracker.new rid cid rlat rlon mpi) frames).2 icao) ∧
    (posTimes (positionStep resolve t ac m icao ts).2.2 icao = [ts] ↔
      (t.lastStored icao = none ∨
        ∃ last, t.lastStored icao = some last ∧
          t.minPositionInterval ≤ ts - last)) ∧
    (positionStep resolve t ac m icao ts).1.positionHistory.getLast? =
      some (ts, lat, lon, (storeCpr ac m).altitudeFt) := by
  refine ⟨?_, ⟨?_, ?_⟩, ?_⟩
  · obtain ⟨_, hc, _⟩ := runUpdates_invariant lk
      (fun a rla rlo => tryCprDecode a rla rlo) icao mpi frames
      (Tracker.new rid cid rlat rlon mpi) rfl
    simpa using hc
  · intro hemit
    cases hl : t.lastStored icao with
    | none => exact Or.inl rfl
    | some last =>
      by_cases hge : t.minPositionInterval ≤ ts - last
      · exact Or.inr ⟨last, rfl, hge⟩
      · obtain ⟨ac', heq, _⟩ := positionStep_skip hres hl hge
        rw [heq] at hemit
        simp [posTimes] at hemit
  · intro hl
    obtain ⟨ac', heq, _⟩ := positionStep_emit hres hl
    rw [heq]
    show posTimes [TrackEvent.positionUpdate icao lat lon ac'.altitudeFt
      ac'.speedKts ac'.headingDeg ac'.verticalRateFpm t.receiverId ts] icao = [ts]
    rw [posTimes_pU]
    simp
  · cases hl : t.lastStored icao with
    | none =>
      obtain ⟨ac', heq, hlast⟩ := positionStep_emit hres (Or.inl hl)
      rw [heq]
      exact hlast
    | some last =>
      by_cases hge : t.minPositionInterval ≤ ts - last
      · obtain ⟨ac', heq, hlast⟩ := positionStep_emit hres (Or.inr ⟨last, hl, hge⟩)
        rw [heq]
        exact hlast
      · obtain ⟨ac', heq, hlast⟩ := positionStep_skip hres hl hge
        rw [heq]
        exact hlast

/-- Witness for C5 at a fresh tracker, an empty frame sequence, and one
concrete position resolve. -/
theorem C5_position_throttling_and_history_witness :
    resolveW (storeCpr acW mW) trkW.refLat trkW.refLon = some (1, 2) ∧
    (List.Chain' (fun a b => (2 : ℚ) ≤ b - a)
      (posTimes (Tracker.runUpdates lkNone
        (fun a rla rlo => tryCprDecode a rla rlo)
        (Tracker.new none none none none 2) []).2 (0, 0, 0)) ∧
    (posTimes (positionStep resolveW trkW acW mW (0, 0, 0) 5).2.2 (0, 0, 0) =
        [5] ↔
      (trkW.lastStored (0, 0, 0) = none ∨
        ∃ last, trkW.lastStored (0, 0, 0) = some last ∧
          trkW.minPositionInterval ≤ 5 - last)) ∧
    (positionStep resolveW trkW acW mW (0, 0, 0) 5).1.positionHistory.getLast? =
      some (5, 1, 2, (storeCpr acW mW).altitudeFt)) :=
  ⟨rfl, C5_position_throttling_and_history lkNone none none none none 2 []
    resolveW trkW acW mW (0, 0, 0) 5 1 2 rfl⟩

theorem floor_intCast_div_real (m n : ℤ) (hn : 0 ≤ n) :
    ⌊(m : ℝ) / (n : ℝ)⌋ = m / n := by
  lift n to ℕ using hn
  rw [show ((m : ℝ) / ((((n : ℕ) : ℤ)) : ℝ)) = (((m / (n : ℕ) : ℚ) : ℝ)) by
    push_cast; ring]
  rw [Rat.floor_cast, Rat.floor_intCast_div_natCast]

theorem modulo_int (m n : ℤ) (hn : 0 ≤ n) :
    modulo (m : ℝ) (n : ℝ) = ((m % n : ℤ) : ℝ) := by
  unfold modulo
  rw [floor_intCast_div_real m n hn, Int.emod_def]
  push_cast
  ring

theorem modulo_int60 (m : ℤ) : modulo (m : ℝ) 60 = ((m % 60 : ℤ) : ℝ) := by
  rw [show (60 : ℝ) = (((60 : ℤ)) : ℝ) by norm_num]
  exact modulo_int m 60 (by norm_num)

theorem modulo_int59 (m : ℤ) : modulo (m : ℝ) 59 = ((m % 59 : ℤ) : ℝ) := by
  rw [show (59 : ℝ) = (((59 : ℤ)) : ℝ) by norm_num]
  exact modulo_int m 59 (by norm_num)

theorem roundHalfAway_le (x : ℝ) : (roundHalfAway x : ℝ) ≤ x + 1 / 2 := by
  unfold roundHalfAway
  split
  · exact_mod_cast Int.floor_le (x + 1 / 2)
  · have := Int.sub_one_lt_floor (-x + 1 / 2)
    push_cast
    linarith

theorem le_roundHalfAway (x : ℝ) : x - 1 / 2 ≤ (roundHalfAway x : ℝ) := by
  unfold roundHalfAway
  split
  · have := Int.sub_one_lt_floor (x + 1 / 2)
    push_cast
    linarith
  · have := Int.floor_le (-x + 1 / 2)
    push_cast
    linarith

theorem roundHalfAway_mono {x y : ℝ} (h : x ≤ y) :
    roundHalfAway x ≤ roundHalfAway y := by
  unfold roundHalfAway
  split <;> split
  · exact Int.floor_le_floor (by linarith)
  · rename_i hx hy
    exact absurd (le_trans hx h) hy
  · rename_i hx hy
    have h1 : (0 : ℤ) ≤ ⌊y + 1 / 2⌋ := Int.floor_nonneg.mpr (by linarith)
    have h2 : (0 : ℤ) ≤ ⌊-x + 1 / 2⌋ := by
      push_neg at hx
      exact Int.floor_nonneg.mpr (by linarith)
    omega
  · rename_i hx hy
    have := Int.floor_le_floor (α := ℝ) (show -y + 1 / 2 ≤ -x + 1 / 2 by linarith)
    omega

theorem round6_le_add (x : ℝ) : round6 x ≤ x + 1 / 2000000 := by
  unfold round6
  have h := roundHalfAway_le (x * 1000000)
  rw [div_le_iff (by norm_num : (0 : ℝ) < 1000000)]
  linarith

theorem round6_mono {x y : ℝ} (h : x ≤ y) : round6 x ≤ round6 y := by
  unfold round6
  have h1 := roundHalfAway_mono
    (mul_le_mul_of_nonneg_right h (by norm_num : (0 : ℝ) ≤ 1000000))
  have h2 : ((roundHalfAway (x * 1000000)) : ℝ) ≤
      ((roundHalfAway (y * 1000000)) : ℝ) := by exact_mod_cast h1
  exact (div_le_div_iff_of_pos_right (by norm_num)).mpr h2

theorem round6_neg90 : round6 (-90 : ℝ) = -90 := by
  unfold round6 roundHalfAway
  rw [if_neg (by norm_num)]
  norm_num

theorem round6_neg180 : round6 (-180 : ℝ) = -180 := by
  unfold round6 roundHalfAway
  rw [if_neg (by norm_num)]
  norm_num

theorem round6_zero : round6 (0 : ℝ) = 0 := by
  unfold round6 roundHalfAway
  rw [if_pos (by norm_num)]
  norm_num

theorem nl_one_le (lat : ℝ) : 1 ≤ nl lat := by
  unfold nl
  split
  · exact le_refl 1
  · exact le_max_right _ _

/-- The zone count `nl` never exceeds 63: the `arccos` argument is at most
`cos (1/10)`, so the angle is at least `1/10` and `2π / angle < 63`. -/
theorem nl_le_63 (lat : ℝ) : nl lat ≤ 63 := by
  unfold nl
  split
  · norm_num
  · rename_i hlat
    push_neg at hlat
    have hpi := Real.pi_pos
    have habs := abs_nonneg lat
    have hang : 0 ≤ Real.pi / 180 * |lat| := by positivity
    have hang2 : Real.pi / 180 * |lat| < Real.pi / 2 := by nlinarith
    have hcospos : 0 < Real.cos (Real.pi / 180 * |lat|) :=
      Real.cos_pos_of_mem_Ioo ⟨by linarith, hang2⟩
    have hc30 : Real.cos (Real.pi / (2 * 15)) ≤ Real.cos (1 / 10) := by
      apply Real.cos_le_cos_of_nonneg_of_le_pi (by norm_num) (by linarith)
      linarith [Real.pi_gt_three]
    have hc2 : Real.cos (Real.pi / 180 * |lat|) ^ 2 ≤ 1 := Real.cos_sq_le_one _
    have hc2pos : 0 < Real.cos (Real.pi / 180 * |lat|) ^ 2 := by positivity
    have ha : 0 ≤ 1 - Real.cos (Real.pi / (2 * 15)) := by
      linarith [Real.cos_le_one (Real.pi / (2 * 15))]
    have hdiv : 1 - Real.cos (Real.pi / (2 * 15)) ≤
        (1 - Real.cos (Real.pi / (2 * 15))) /
          Real.cos (Real.pi / 180 * |lat|) ^ 2 := by
      rw [le_div_iff hc2pos]
      nlinarith
    have harg : 1 - (1 - Real.cos (Real.pi / (2 * 15))) /
        Real.cos (Real.pi / 180 * |lat|) ^ 2 ≤ Real.cos (1 / 10) := by
      linarith
    have harccos : 1 / 10 ≤ Real.arccos (1 - (1 - Real.cos (Real.pi / (2 * 15))) /
        Real.cos (Real.pi / 180 * |lat|) ^ 2) := by
      have h1 : Real.arccos (Real.cos (1 / 10)) = 1 / 10 :=
        Real.arccos_cos (by norm_num) (by linarith [Real.pi_gt_three])
      rw [← h1, Real.arccos_eq_pi_div_two_sub_arcsin,
        Real.arccos_eq_pi_div_two_sub_arcsin]
      have := Real.monotone_arcsin harg
      linarith
    have hfrac : 2 * Real.pi / Real.arccos (1 - (1 - Real.cos (Real.pi / (2 * 15))) /
        Real.cos (Real.pi / 180 * |lat|) ^ 2) < 63 := by
      have harcpos : 0 < Real.arccos (1 - (1 - Real.cos (Real.pi / (2 * 15))) /
          Real.cos (Real.pi / 180 * |lat|) ^ 2) := by linarith
      rw [div_lt_iff harcpos]
      have h2pi : 2 * Real.pi < 6.3 := by linarith [Real.pi_lt_d2]
      nlinarith
    refine max_le ?_ (by norm_num)
    exact le_of_lt (Int.floor_lt.mpr (by exact_mod_cast hfrac))

/-- The even candidate latitude lies in `[-90, 270)` (with one grid step of
slack below 270) whenever the even CPR value is 17-bit. -/
theorem cprLatCandE_mem (latEven latOdd : ℕ) (hE : latEven < 131072) :
    -90 ≤ cprLatCandE latEven latOdd ∧
    cprLatCandE latEven latOdd ≤ 270 - 1 / 25000 := by
  simp only [cprLatCandE, cprMax]
  rw [modulo_int60]
  have hr0 : (0 : ℤ) ≤ cprJ latEven latOdd % 60 := Int.emod_nonneg _ (by norm_num)
  have hr59 : cprJ latEven latOdd % 60 < 60 := Int.emod_lt_of_pos _ (by norm_num)
  have hr0R : (0 : ℝ) ≤ ((cprJ latEven latOdd % 60 : ℤ) : ℝ) := by exact_mod_cast hr0
  have hr59R : ((cprJ latEven latOdd % 60 : ℤ) : ℝ) ≤ 59 := by
    exact_mod_cast Int.lt_add_one_iff.mp hr59
  have hEc : ((latEven : ℝ)) < 131072 := by exact_mod_cast hE
  have hEc0 : (0 : ℝ) ≤ (latEven : ℝ) := Nat.cast_nonneg _
  have hlK : 360 / (4 * 15) * (((cprJ latEven latOdd % 60 : ℤ) : ℝ) +
      (latEven : ℝ) / 131072) =
      3 * ((131072 * (cprJ latEven latOdd % 60) + (latEven : ℤ) : ℤ) : ℝ) / 65536 := by
    push_cast
    ring
  have hl0 : 0 ≤ 360 / (4 * 15) * (((cprJ latEven latOdd % 60 : ℤ) : ℝ) +
      (latEven : ℝ) / 131072) := by positivity
  have hl360 : 360 / (4 * 15) * (((cprJ latEven latOdd % 60 : ℤ) : ℝ) +
      (latEven : ℝ) / 131072) < 360 := by nlinarith
  split
  · rename_i h270
    constructor
    · linarith
    · linarith
  · rename_i h270
    push_neg at h270
    refine ⟨by linarith, ?_⟩
    have hK : 131072 * (cprJ latEven latOdd % 60) + (latEven : ℤ) < 5898240 := by
      by_contra hc
      push_neg at hc
      have hcR : (5898240 : ℝ) ≤
          ((131072 * (cprJ latEven latOdd % 60) + (latEven : ℤ) : ℤ) : ℝ) := by
        exact_mod_cast hc
      rw [hlK] at h270
      nlinarith
    have hK' : ((131072 * (cprJ latEven latOdd % 60) + (latEven : ℤ) : ℤ) : ℝ) ≤
        5898239 := by exact_mod_cast Int.lt_add_one_iff.mp hK
    rw [hlK]
    linarith

/-- The odd candidate latitude lies in `[-90, 270)` (with one grid step of
slack below 270) whenever the odd CPR value is 17-bit. -/
theorem cprLatCandO_mem (latEven latOdd : ℕ) (hO : latOdd < 131072) :
    -90 ≤ cprLatCandO latEven latOdd ∧
    cprLatCandO latEven latOdd ≤ 270 - 1 / 25000 := by
  simp only [cprLatCandO, cprMax]
  rw [modulo_int59]
  have hr0 : (0 : ℤ) ≤ cprJ latEven latOdd % 59 := Int.emod_nonneg _ (by norm_num)
  have hr59 : cprJ latEven latOdd % 59 < 59 := Int.emod_lt_of_pos _ (by norm_num)
  have hr0R : (0 : ℝ) ≤ ((cprJ latEven latOdd % 59 : ℤ) : ℝ) := by exact_mod_cast hr0
  have hr59R : ((cprJ latEven latOdd % 59 : ℤ) : ℝ) ≤ 58 := by
    exact_mod_cast Int.lt_add_one_iff.mp hr59
  have hOc : ((latOdd : ℝ)) < 131072 := by exact_mod_cast hO
  have hOc0 : (0 : ℝ) ≤ (latOdd : ℝ) := Nat.cast_nonneg _
  have hlK : 360 / (4 * 15 - 1) * (((cprJ latEven latOdd % 59 : ℤ) : ℝ) +
      (latOdd : ℝ) / 131072) =
      360 * ((131072 * (cprJ latEven latOdd % 59) + (latOdd : ℤ) : ℤ) : ℝ) / 7733248 := by
    push_cast
    ring
  have hl0 : 0 ≤ 360 / (4 * 15 - 1) * (((cprJ latEven latOdd % 59 : ℤ) : ℝ) +
      (latOdd : ℝ) / 131072) := by positivity
  have hl360 : 360 / (4 * 15 - 1) * (((cprJ latEven latOdd % 59 : ℤ) : ℝ) +
      (latOdd : ℝ) / 131072) < 360 := by nlinarith
  split
  · rename_i h270
    constructor
    · linarith
    · linarith
  · rename_i h270
    push_neg at h270
    refine ⟨by linarith, ?_⟩
    have hK : 131072 * (cprJ latEven latOdd % 59) + (latOdd : ℤ) < 5799936 := by
      by_contra hc
      push_neg at hc
      have hcR : (5799936 : ℝ) ≤
          ((131072 * (cprJ latEven latOdd % 59) + (latOdd : ℤ) : ℤ) : ℝ) := by
        exact_mod_cast hc
      rw [hlK] at h270
      nlinarith
    have hK' : ((131072 * (cprJ latEven latOdd % 59) + (latOdd : ℤ) : ℤ) : ℝ) ≤
        5799935 := by exact_mod_cast Int.lt_add_one_iff.mp hK
    rw [hlK]
    linarith

/-- The pre-normalization longitude of `global_decode` lies in `[0, 360)`,
and one grid step below 180 when it is below 180 at all. -/
theorem lonVal_mem (nLon m : ℤ) (c : ℕ) (h1 : 1 ≤ nLon) (h63 : nLon ≤ 63)
    (hc : c < 131072) :
    0 ≤ 360 / (nLon : ℝ) * (modulo (m : ℝ) (nLon : ℝ) + (c : ℝ) / 131072) ∧
    360 / (nLon : ℝ) * (modulo (m : ℝ) (nLon : ℝ) + (c : ℝ) / 131072) < 360 ∧
    (360 / (nLon : ℝ) * (modulo (m : ℝ) (nLon : ℝ) + (c : ℝ) / 131072) < 180 →
      360 / (nLon : ℝ) * (modulo (m : ℝ) (nLon : ℝ) + (c : ℝ) / 131072) ≤
        180 - 1 / 25000) := by
  rw [modulo_int m nLon (by omega)]
  have hr0 : (0 : ℤ) ≤ m % nLon := Int.emod_nonneg _ (by omega)
  have hrn : m % nLon < nLon := Int.emod_lt_of_pos _ (by omega)
  have hr0R : (0 : ℝ) ≤ ((m % nLon : ℤ) : ℝ) := by exact_mod_cast hr0
  have hrnR : ((m % nLon : ℤ) : ℝ) ≤ (nLon : ℝ) - 1 := by
    have h' : m % nLon ≤ nLon - 1 := by omega
    have h'' : ((m % nLon : ℤ) : ℝ) ≤ ((nLon - 1 : ℤ) : ℝ) := by exact_mod_cast h'
    push_cast at h''
    linarith
  have hn1 : (1 : ℝ) ≤ (nLon : ℝ) := by exact_mod_cast h1
  have hn63 : (nLon : ℝ) ≤ 63 := by exact_mod_cast h63
  have hnpos : (0 : ℝ) < (nLon : ℝ) := by linarith
  have hc0 : (0 : ℝ) ≤ (c : ℝ) := Nat.cast_nonneg _
  have hcR : (c : ℝ) < 131072 := by exact_mod_cast hc
  have hLK : 360 / (nLon : ℝ) * (((m % nLon : ℤ) : ℝ) + (c : ℝ) / 131072) =
      360 * ((131072 * (m % nLon) + (c : ℤ) : ℤ) : ℝ) / (131072 * (nLon : ℝ)) := by
    push_cast
    field_simp
    ring
  refine ⟨?_, ?_, ?_⟩
  · positivity
  · rw [hLK, div_lt_iff (by positivity)]
    push_cast
    nlinarith
  · intro h180
    have hK : 131072 * (m % nLon) + (c : ℤ) < 65536 * nLon := by
      by_contra hcon
      push_neg at hcon
      have hcCR : ((65536 * nLon : ℤ) : ℝ) ≤
          ((131072 * (m % nLon) + (c : ℤ) : ℤ) : ℝ) := by exact_mod_cast hcon
      rw [hLK, div_lt_iff (by positivity)] at h180
      push_cast at hcCR h180
      linarith
    have hK' : ((131072 * (m % nLon) + (c : ℤ) : ℤ) : ℝ) ≤
        65536 * (nLon : ℝ) - 1 := by
      have h' : 131072 * (m % nLon) + (c : ℤ) ≤ 65536 * nLon - 1 := by omega
      exact_mod_cast h'
    rw [hLK, div_le_iff (by positivity)]
    nlinarith

theorem cprJ_ex : cprJ 65536 30000 = 16 := by
  unfold cprJ cprMax
  norm_num

theorem cprLatCandE_ex : cprLatCandE 65536 30000 = 99 := by
  simp only [cprLatCandE, cprMax, cprJ_ex, modulo]
  norm_num

theorem cprLatCandO_ex : cprLatCandO 65536 30000 = 5982615 / 60416 := by
  simp only [cprLatCandO, cprMax, cprJ_ex, modulo]
  norm_num

theorem nl_latE_ex : nl (cprLatCandE 65536 30000) = 1 := by
  rw [cprLatCandE_ex]
  unfold nl
  rw [if_pos]
  rw [abs_of_nonneg (show (0 : ℝ) ≤ 99 by norm_num)]
  norm_num

theorem nl_latO_ex : nl (cprLatCandO 65536 30000) = 1 := by
  rw [cprLatCandO_ex]
  unfold nl
  rw [if_pos]
  rw [abs_of_nonneg (show (0 : ℝ) ≤ 5982615 / 60416 by norm_num)]
  norm_num

/-- `global_decode` on an even/odd pair whose candidate latitudes both lie
above 90 degrees: both have `NL = 1`, the guard passes, and the decoded
latitude 99 escapes the claimed range. -/
theorem globalDecode_ex :
    globalDecode 65536 0 30000 0 1 0 = some (99, 0) := by
  simp only [globalDecode, MAX_PAIR_AGE, cprMax]
  rw [if_neg (by rw [show (1 : ℝ) - 0 = 1 by ring, abs_one]; norm_num)]
  rw [if_neg (by rw [nl_latE_ex, nl_latO_ex]; exact fun hc => hc rfl)]
  rw [if_pos (by norm_num : (0 : ℝ) ≤ 1)]
  rw [nl_latE_ex, cprLatCandE_ex]
  simp only [modulo]
  norm_num [round6, roundHalfAway]

theorem round6_lat_bounds (v lat : ℝ) (hlo : -90 ≤ v)
    (hhi : v ≤ 270 - 1 / 25000) (h : round6 v = lat) :
    -90 ≤ lat ∧ lat < 270 := by
  subst h
  constructor
  · have := round6_mono hlo
    rw [round6_neg90] at this
    exact this
  · have := round6_le_add v
    linarith

theorem round6_lon_bounds (nLon m : ℤ) (c : ℕ) (h1 : 1 ≤ nLon) (h63 : nLon ≤ 63)
    (hc : c < 131072) (lon : ℝ)
    (h : round6 (if 180 ≤ 360 / (nLon : ℝ) *
          (modulo (m : ℝ) (nLon : ℝ) + (c : ℝ) / 131072)
        then 360 / (nLon : ℝ) *
          (modulo (m : ℝ) (nLon : ℝ) + (c : ℝ) / 131072) - 360
        else 360 / (nLon : ℝ) *
          (modulo (m : ℝ) (nLon : ℝ) + (c : ℝ) / 131072)) = lon) :
    -180 ≤ lon ∧ lon < 180 := by
  obtain ⟨hL0, hL360, hLgrid⟩ := lonVal_mem nLon m c h1 h63 hc
  subst h
  split
  · rename_i h180
    constructor
    · have := round6_mono (show (-180 : ℝ) ≤ 360 / (nLon : ℝ) *
          (modulo (m : ℝ) (nLon : ℝ) + (c : ℝ) / 131072) - 360 by linarith)
      rw [round6_neg180] at this
      exact this
    · have := round6_le_add (360 / (nLon : ℝ) *
        (modulo (m : ℝ) (nLon : ℝ) + (c : ℝ) / 131072) - 360)
      linarith
  · rename_i h180
    push_neg at h180
    have hg := hLgrid h180
    constructor
    · have := round6_mono hL0
      rw [round6_zero] at this
      linarith
    · have := round6_le_add (360 / (nLon : ℝ) *
        (modulo (m : ℝ) (nLon : ℝ) + (c : ℝ) / 131072))
      linarith

/-- C1 (amended): when `global_decode` returns `(lat, lon)` on 17-bit CPR
inputs, the internal candidate latitudes satisfy `NL(lat_e) = NL(lat_o)`
and the result satisfies `-90 ≤ lat < 270` and `-180 ≤ lon < 180`; the
claimed upper bound `lat ≤ 90` fails (see the counterexample), because
candidates in `(90, 270)` are left unnormalized. -/
theorem C1_global_decode_ranges (latEven lonEven latOdd lonOdd : ℕ)
    (tEven tOdd : ℝ) (lat lon : ℝ)
    (hE : latEven < 131072) (hO : latOdd < 131072)
    (hlE : lonEven < 131072) (hlO : lonOdd < 131072)
    (h : globalDecode latEven lonEven latOdd lonOdd tEven tOdd =
      some (lat, lon)) :
    nl (cprLatCandE latEven latOdd) = nl (cprLatCandO latEven latOdd) ∧
    -90 ≤ lat ∧ lat < 270 ∧ -180 ≤ lon ∧ lon < 180 := by
  simp only [globalDecode, cprMax] at h
  split at h
  · exact absurd h (by simp)
  · split at h
    · exact absurd h (by simp)
    · rename_i hnl
      have hnleq : nl (cprLatCandE latEven latOdd) =
          nl (cprLatCandO latEven latOdd) := not_not.mp hnl
      refine ⟨hnleq, ?_⟩
      split at h
      · simp only [Option.some.injEq, Prod.mk.injEq] at h
        obtain ⟨hlat, hlon⟩ := h
        have hlatB := round6_lat_bounds _ lat
          (cprLatCandE_mem latEven latOdd hE).1
          (cprLatCandE_mem latEven latOdd hE).2 hlat
        have hlonB := round6_lon_bounds _ _ lonEven (le_max_right _ _)
          (max_le (nl_le_63 _) (by norm_num)) hlE lon hlon
        exact ⟨hlatB.1, hlatB.2, hlonB.1, hlonB.2⟩
      · simp only [Option.some.injEq, Prod.mk.injEq] at h
        obtain ⟨hlat, hlon⟩ := h
        have hlatB := round6_lat_bounds _ lat
          (cprLatCandO_mem latEven latOdd hO).1
          (cprLatCandO_mem latEven latOdd hO).2 hlat
        have hlonB := round6_lon_bounds _ _ lonOdd (le_max_right _ _)
          (max_le (by linarith [nl_le_63 (cprLatCandO latEven latOdd)])
            (by norm_num)) hlO lon hlon
        exact ⟨hlatB.1, hlatB.2, hlonB.1, hlonB.2⟩

/-- C1 counterexample: a decodable even/odd pair whose decoded latitude is
99 degrees, outside the claimed `-90 ≤ lat ≤ 90` range. -/
theorem C1_counterexample :
    globalDecode 65536 0 30000 0 1 0 = some (99, 0) ∧ ¬((99 : ℝ) ≤ 90) :=
  ⟨globalDecode_ex, by norm_num⟩

/-- Witness for C1 (amended) at the concrete decodable pair. -/
theorem C1_global_decode_ranges_witness :
    ((65536 : ℕ) < 131072 ∧ (0 : ℕ) < 131072 ∧ (30000 : ℕ) < 131072 ∧
      globalDecode 65536 0 30000 0 1 0 = some (99, 0)) ∧
    (nl (cprLatCandE 65536 30000) = nl (cprLatCandO 65536 30000) ∧
     -90 ≤ (99 : ℝ) ∧ (99 : ℝ) < 270 ∧ -180 ≤ (0 : ℝ) ∧ (0 : ℝ) < 180) :=
  ⟨⟨by norm_num, by norm_num, by norm_num, globalDecode_ex⟩,
   C1_global_decode_ranges 65536 0 30000 0 1 0 99 0 (by norm_num)
     (by norm_num) (by norm_num) (by norm_num) globalDecode_ex⟩

theorem cube_mono {a b : ℝ} (ha : 1 / 2 ≤ a) (hab : a ≤ b) :
    4 * a ^ 3 - 3 * a ≤ 4 * b ^ 3 - 3 * b := by
  have h1 : (0 : ℝ) ≤ (b - a) * ((b + a) ^ 2 - 1) :=
    mul_nonneg (by linarith) (by nlinarith)
  have h2 : (0 : ℝ) ≤ (b - a) * (a ^ 2 - 1 / 4) :=
    mul_nonneg (by linarith) (by nlinarith)
  have h3 : (0 : ℝ) ≤ (b - a) * (b ^ 2 - 1 / 4) :=
    mul_nonneg (by linarith) (by nlinarith)
  nlinarith [h1, h2, h3]

theorem cos_base_bounds (a b x : ℝ) (ha0 : 0 ≤ a) (hax : a ≤ x) (hxb : x ≤ b)
    (hb1 : b ≤ 1) :
    1 - b ^ 2 / 2 - b ^ 4 * (5 / 96) ≤ Real.cos x ∧
    Real.cos x ≤ 1 - a ^ 2 / 2 + b ^ 4 * (5 / 96) := by
  have hx0 : 0 ≤ x := le_trans ha0 hax
  have hb := Real.cos_bound (x := x) (by rw [abs_of_nonneg hx0]; linarith)
  rw [abs_of_nonneg hx0] at hb
  have hb' := abs_le.mp hb
  have h2 : x ^ 2 ≤ b ^ 2 := by nlinarith
  have h2' : a ^ 2 ≤ x ^ 2 := by nlinarith
  have h4 : x ^ 4 ≤ b ^ 4 := by nlinarith
  constructor
  · linarith [hb'.1]
  · linarith [hb'.2]

theorem cos_triple_step {x lo hi lo' hi' : ℝ} (y : ℝ) (hxy : y = 3 * x)
    (hlo : 1 / 2 ≤ lo) (h1 : lo ≤ Real.cos x) (h2 : Real.cos x ≤ hi)
    (hlo' : lo' ≤ 4 * lo ^ 3 - 3 * lo) (hhi' : 4 * hi ^ 3 - 3 * hi ≤ hi') :
    lo' ≤ Real.cos y ∧ Real.cos y ≤ hi' := by
  subst hxy
  rw [Real.cos_three_mul]
  have hA := cube_mono hlo h1
  have hB := cube_mono (le_trans hlo h1) h2
  exact ⟨by linarith, by linarith⟩
/-- Interval bounds for `cos (π/30)` via three triple-angle descents. -/
theorem cos_pi_div_30_bounds :
    (0.9945218787241219 : ℝ) ≤ Real.cos ((1 / 30 : ℝ) * Real.pi) ∧
    Real.cos ((1 / 30 : ℝ) * Real.pi) ≤ 0.9945218993608585 := by
  have hpl : (3.141592 : ℝ) < Real.pi := Real.pi_gt_d6
  have hph : Real.pi < (3.141593 : ℝ) := Real.pi_lt_d6
  have h0 := cos_base_bounds ((1 / 810 : ℝ) * 3.141592)
    ((1 / 810 : ℝ) * 3.141593) ((1 / 810 : ℝ) * Real.pi)
    (by norm_num) (by linarith) (by linarith) (by norm_num)
  have h0' : (0.9999924785687829 : ℝ) ≤
      Real.cos ((1 / 810 : ℝ) * Real.pi) ∧
      Real.cos ((1 / 810 : ℝ) * Real.pi) ≤ 0.9999924785971429 :=
    ⟨le_trans (by norm_num) h0.1, le_trans h0.2 (by norm_num)⟩
  have h1 := cos_triple_step ((1 / 270 : ℝ) * Real.pi)
    (by ring) (by norm_num) h0'.1 h0'.2
    (by norm_num : (0.9999323077979075 : ℝ) ≤
      4 * (0.9999924785687829 : ℝ) ^ 3 - 3 * (0.9999924785687829 : ℝ))
    (by norm_num : 4 * (0.9999924785971429 : ℝ) ^ 3 - 3 * (0.9999924785971429 : ℝ) ≤
      (0.9999323080531425 : ℝ))
  have h2 := cos_triple_step ((1 / 90 : ℝ) * Real.pi)
    (by ring) (by norm_num) h1.1 h1.2
    (by norm_num : (0.9993908251667374 : ℝ) ≤
      4 * (0.9999323077979075 : ℝ) ^ 3 - 3 * (0.9999323077979075 : ℝ))
    (by norm_num : 4 * (0.9999323080531425 : ℝ) ^ 3 - 3 * (0.9999323080531425 : ℝ) ≤
      (0.9993908274634379 : ℝ))
  have h3 := cos_triple_step ((1 / 30 : ℝ) * Real.pi)
    (by ring) (by norm_num) h2.1 h2.2
    (by norm_num : (0.9945218787241219 : ℝ) ≤
      4 * (0.9993908251667374 : ℝ) ^ 3 - 3 * (0.9993908251667374 : ℝ))
    (by norm_num : 4 * (0.9993908274634379 : ℝ) ^ 3 - 3 * (0.9993908274634379 : ℝ) ≤
      (0.9945218993608585 : ℝ))
  exact h3

/-- Interval bounds for `cos (π/18)`. -/
theorem cos_pi_div_18_bounds :
    (0.9848076309434462 : ℝ) ≤ Real.cos ((1 / 18 : ℝ) * Real.pi) ∧
    Real.cos ((1 / 18 : ℝ) * Real.pi) ≤ 0.9848077725095202 := by
  have hpl : (3.141592 : ℝ) < Real.pi := Real.pi_gt_d6
  have hph : Real.pi < (3.141593 : ℝ) := Real.pi_lt_d6
  have h0 := cos_base_bounds ((1 / 486 : ℝ) * 3.141592)
    ((1 / 486 : ℝ) * 3.141593) ((1 / 486 : ℝ) * Real.pi)
    (by norm_num) (by linarith) (by linarith) (by norm_num)
  have h0' : (0.9999791070773069 : ℝ) ≤
      Real.cos ((1 / 486 : ℝ) * Real.pi) ∧
      Real.cos ((1 / 486 : ℝ) * Real.pi) ≤ 0.9999791072724871 :=
    ⟨le_trans (by norm_num) h0.1, le_trans h0.2 (by norm_num)⟩
  have h1 := cos_triple_step ((1 / 162 : ℝ) * Real.pi)
    (by ring) (by norm_num) h0'.1 h0'.2
    (by norm_num : (0.9998119689338962 : ℝ) ≤
      4 * (0.9999791070773069 : ℝ) ^ 3 - 3 * (0.9999791070773069 : ℝ))
    (by norm_num : 4 * (0.9999791072724871 : ℝ) ^ 3 - 3 * (0.9999791072724871 : ℝ) ≤
      (0.9998119706904202 : ℝ))
  have h2 := cos_triple_step ((1 / 54 : ℝ) * Real.pi)
    (by ring) (by norm_num) h1.1 h1.2
    (by norm_num : (0.9983081446466557 : ℝ) ≤
      4 * (0.9998119689338962 : ℝ) ^ 3 - 3 * (0.9998119689338962 : ℝ))
    (by norm_num : 4 * (0.9998119706904202 : ℝ) ^ 3 - 3 * (0.9998119706904202 : ℝ) ≤
      (0.9983081604474459 : ℝ))
  have h3 := cos_triple_step ((1 / 18 : ℝ) * Real.pi)
    (by ring) (by norm_num) h2.1 h2.2
    (by norm_num : (0.9848076309434462 : ℝ) ≤
      4 * (0.9983081446466557 : ℝ) ^ 3 - 3 * (0.9983081446466557 : ℝ))
    (by norm_num : 4 * (0.9983081604474459 : ℝ) ^ 3 - 3 * (0.9983081604474459 : ℝ) ≤
      (0.9848077725095202 : ℝ))
  exact h3

/-- Interval bounds for `cos (2π/37)`. -/
theorem cos_two_pi_div_37_bounds :
    (0.9856158007517744 : ℝ) ≤ Real.cos ((2 / 37 : ℝ) * Real.pi) ∧
    Real.cos ((2 / 37 : ℝ) * Real.pi) ≤ 0.98561592814427 := by
  have hpl : (3.141592 : ℝ) < Real.pi := Real.pi_gt_d6
  have hph : Real.pi < (3.141593 : ℝ) := Real.pi_lt_d6
  have h0 := cos_base_bounds ((2 / 999 : ℝ) * 3.141592)
    ((2 / 999 : ℝ) * 3.141593) ((2 / 999 : ℝ) * Real.pi)
    (by norm_num) (by linarith) (by linarith) (by norm_num)
  have h0' : (0.9999802211676219 : ℝ) ≤
      Real.cos ((2 / 999 : ℝ) * Real.pi) ∧
      Real.cos ((2 / 999 : ℝ) * Real.pi) ≤ 0.9999802213432131 :=
    ⟨le_trans (by norm_num) h0.1, le_trans h0.2 (by norm_num)⟩
  have h1 := cos_triple_step ((2 / 333 : ℝ) * Real.pi)
    (by ring) (by norm_num) h0'.1 h0'.2
    (by norm_num : (0.9998219952029926 : ℝ) ≤
      4 * (0.9999802211676219 : ℝ) ^ 3 - 3 * (0.9999802211676219 : ℝ))
    (by norm_num : 4 * (0.9999802213432131 : ℝ) ^ 3 - 3 * (0.9999802213432131 : ℝ) ≤
      (0.9998219967832302 : ℝ))
  have h2 := cos_triple_step ((2 / 111 : ℝ) * Real.pi)
    (by ring) (by norm_num) h1.1 h1.2
    (by norm_num : (0.9983983370328656 : ℝ) ≤
      4 * (0.9998219952029926 : ℝ) ^ 3 - 3 * (0.9998219952029926 : ℝ))
    (by norm_num : 4 * (0.9998219967832302 : ℝ) ^ 3 - 3 * (0.9998219967832302 : ℝ) ≤
      (0.9983983512482538 : ℝ))
  have h3 := cos_triple_step ((2 / 37 : ℝ) * Real.pi)
    (by ring) (by norm_num) h2.1 h2.2
    (by norm_num : (0.9856158007517744 : ℝ) ≤
      4 * (0.9983983370328656 : ℝ) ^ 3 - 3 * (0.9983983370328656 : ℝ))
    (by norm_num : 4 * (0.9983983512482538 : ℝ) ^ 3 - 3 * (0.9983983512482538 : ℝ) ≤
      (0.98561592814427 : ℝ))
  exact h3

/-- Interval bounds for `cos (π·latE/180)` at the C6 even candidate latitude `latE = 428091/8192`. -/
theorem cos_qE_bounds :
    (0.6120406381143025 : ℝ) ≤ Real.cos ((142697 / 491520 : ℝ) * Real.pi) ∧
    Real.cos ((142697 / 491520 : ℝ) * Real.pi) ≤ 0.6121266103604399 := by
  have hpl : (3.141592 : ℝ) < Real.pi := Real.pi_gt_d6
  have hph : Real.pi < (3.141593 : ℝ) := Real.pi_lt_d6
  have h0 := cos_base_bounds ((142697 / 13271040 : ℝ) * 3.141592)
    ((142697 / 13271040 : ℝ) * 3.141593) ((142697 / 13271040 : ℝ) * Real.pi)
    (by norm_num) (by linarith) (by linarith) (by norm_num)
  have h0' : (0.9994293875627931 : ℝ) ≤
      Real.cos ((142697 / 13271040 : ℝ) * Real.pi) ∧
      Real.cos ((142697 / 13271040 : ℝ) * Real.pi) ≤ 0.9994295235598313 :=
    ⟨le_trans (by norm_num) h0.1, le_trans h0.2 (by norm_num)⟩
  have h1 := cos_triple_step ((142697 / 4423680 : ℝ) * Real.pi)
    (by ring) (by norm_num) h0'.1 h0'.2
    (by norm_num : (0.9948683945046175 : ℝ) ≤
      4 * (0.9994293875627931 : ℝ) ^ 3 - 3 * (0.9994293875627931 : ℝ))
    (by norm_num : 4 * (0.9994295235598313 : ℝ) ^ 3 - 3 * (0.9994295235598313 : ℝ) ≤
      (0.9948696166162761 : ℝ))
  have h2 := cos_triple_step ((142697 / 1474560 : ℝ) * Real.pi)
    (by ring) (by norm_num) h1.1 h1.2
    (by norm_num : (0.9541310105111137 : ℝ) ≤
      4 * (0.9948683945046175 : ℝ) ^ 3 - 3 * (0.9948683945046175 : ℝ))
    (by norm_num : 4 * (0.9948696166162761 : ℝ) ^ 3 - 3 * (0.9948696166162761 : ℝ) ≤
      (0.9541418594065821 : ℝ))
  have h3 := cos_triple_step ((142697 / 491520 : ℝ) * Real.pi)
    (by ring) (by norm_num) h2.1 h2.2
    (by norm_num : (0.6120406381143025 : ℝ) ≤
      4 * (0.9541310105111137 : ℝ) ^ 3 - 3 * (0.9541310105111137 : ℝ))
    (by norm_num : 4 * (0.9541418594065821 : ℝ) ^ 3 - 3 * (0.9541418594065821 : ℝ) ≤
      (0.6121266103604399 : ℝ))
  exact h3

/-- Interval bounds for `cos (π·latO/180)` at the C6 odd candidate latitude `latO = 25261515/483328`. -/
theorem cos_qO_bounds :
    (0.6119221948297305 : ℝ) ≤ Real.cos ((561367 / 1933312 : ℝ) * Real.pi) ∧
    Real.cos ((561367 / 1933312 : ℝ) * Real.pi) ≤ 0.6120082193164802 := by
  have hpl : (3.141592 : ℝ) < Real.pi := Real.pi_gt_d6
  have hph : Real.pi < (3.141593 : ℝ) := Real.pi_lt_d6
  have h0 := cos_base_bounds ((561367 / 52199424 : ℝ) * 3.141592)
    ((561367 / 52199424 : ℝ) * 3.141593) ((561367 / 52199424 : ℝ) * Real.pi)
    (by norm_num) (by linarith) (by linarith) (by norm_num)
  have h0' : (0.9994292001929511 : ℝ) ≤
      Real.cos ((561367 / 52199424 : ℝ) * Real.pi) ∧
      Real.cos ((561367 / 52199424 : ℝ) * Real.pi) ≤ 0.9994293362791878 :=
    ⟨le_trans (by norm_num) h0.1, le_trans h0.2 (by norm_num)⟩
  have h1 := cos_triple_step ((561367 / 17399808 : ℝ) * Real.pi)
    (by ring) (by norm_num) h0'.1 h0'.2
    (by norm_num : (0.9948667107417019 : ℝ) ≤
      4 * (0.9994292001929511 : ℝ) ^ 3 - 3 * (0.9994292001929511 : ℝ))
    (by norm_num : 4 * (0.9994293362791878 : ℝ) ^ 3 - 3 * (0.9994293362791878 : ℝ) ≤
      (0.9948679336543145 : ℝ))
  have h2 := cos_triple_step ((561367 / 5799936 : ℝ) * Real.pi)
    (by ring) (by norm_num) h1.1 h1.2
    (by norm_num : (0.9541160635164182 : ℝ) ≤
      4 * (0.9948667107417019 : ℝ) ^ 3 - 3 * (0.9948667107417019 : ℝ))
    (by norm_num : 4 * (0.9948679336543145 : ℝ) ^ 3 - 3 * (0.9948679336543145 : ℝ) ≤
      (0.9541269194729401 : ℝ))
  have h3 := cos_triple_step ((561367 / 1933312 : ℝ) * Real.pi)
    (by ring) (by norm_num) h2.1 h2.2
    (by norm_num : (0.6119221948297305 : ℝ) ≤
      4 * (0.9541160635164182 : ℝ) ^ 3 - 3 * (0.9541160635164182 : ℝ))
    (by norm_num : 4 * (0.9541269194729401 : ℝ) ^ 3 - 3 * (0.9541269194729401 : ℝ) ≤
      (0.6120082193164802 : ℝ))
  exact h3

/-- The `arccos` argument of `nl` lies in a fixed window when the cosine
of the latitude angle lies in the (merged) interval of the two C6
candidates. -/
theorem arg_in_window {cA c : ℝ} (hA_lo : (0.9945218787241219 : ℝ) ≤ cA)
    (hA_hi : cA ≤ 0.9945218993608585)
    (hc_lo : (0.6119221948297305 : ℝ) ≤ c)
    (hc_hi : c ≤ 0.6121266103604399) :
    (0.9853701716287268 : ℝ) ≤ 1 - (1 - cA) / c ^ 2 ∧
    1 - (1 - cA) / c ^ 2 ≤ 0.9853799961367033 := by
  have hc0 : (0 : ℝ) < c := lt_of_lt_of_le (by norm_num) hc_lo
  have hc2pos : (0 : ℝ) < c ^ 2 := pow_pos hc0 2
  have hc2_lo : (0.6119221948297305 : ℝ) ^ 2 ≤ c ^ 2 := by nlinarith
  have hc2_hi : c ^ 2 ≤ (0.6121266103604399 : ℝ) ^ 2 := by nlinarith
  constructor
  · have hdiv : (1 - cA) / c ^ 2 ≤
        (1 - 0.9945218787241219) / (0.6119221948297305 : ℝ) ^ 2 := by
      rw [div_le_div_iff hc2pos (by norm_num)]
      nlinarith
    have : ((1 : ℝ) - 0.9945218787241219) / (0.6119221948297305 : ℝ) ^ 2 ≤
        1 - 0.9853701716287268 := by norm_num
    linarith
  · have hdiv : (1 - 0.9945218993608585) / (0.6121266103604399 : ℝ) ^ 2 ≤
        (1 - cA) / c ^ 2 := by
      rw [div_le_div_iff (by norm_num) hc2pos]
      nlinarith
    have : (1 : ℝ) - 0.9853799961367033 ≤
        ((1 : ℝ) - 0.9945218993608585) / (0.6121266103604399 : ℝ) ^ 2 := by
      norm_num
    linarith

/-- When the `arccos` argument sits between `cos (π/18)` and `cos (2π/37)`,
the zone computation `⌊2π / arccos v⌋` evaluates to 36. -/
theorem floor_arccos_36 {v : ℝ}
    (h1 : Real.cos ((1 / 18 : ℝ) * Real.pi) ≤ v)
    (h2 : v < Real.cos ((2 / 37 : ℝ) * Real.pi)) :
    ⌊2 * Real.pi / Real.arccos v⌋ = 36 := by
  have hpi := Real.pi_pos
  have hv1 : v ≤ 1 := le_of_lt (lt_of_lt_of_le h2 (Real.cos_le_one _))
  have hvm1 : (-1 : ℝ) ≤ v := le_trans (Real.neg_one_le_cos _) h1
  have hub : Real.arccos v ≤ (1 / 18 : ℝ) * Real.pi := by
    have he : Real.arccos (Real.cos ((1 / 18 : ℝ) * Real.pi)) =
        (1 / 18 : ℝ) * Real.pi :=
      Real.arccos_cos (by positivity) (by linarith)
    rw [← he, Real.arccos_eq_pi_div_two_sub_arcsin,
      Real.arccos_eq_pi_div_two_sub_arcsin]
    linarith [Real.monotone_arcsin h1]
  have hlb : (2 / 37 : ℝ) * Real.pi < Real.arccos v := by
    by_contra hcon
    push_neg at hcon
    have hcv : Real.cos (Real.arccos v) = v := Real.cos_arccos hvm1 hv1
    have hle : Real.cos ((2 / 37 : ℝ) * Real.pi) ≤ Real.cos (Real.arccos v) :=
      Real.cos_le_cos_of_nonneg_of_le_pi (Real.arccos_nonneg v) (by linarith) hcon
    rw [hcv] at hle
    linarith
  have hpos : 0 < Real.arccos v :=
    lt_of_le_of_lt (by positivity) hlb
  apply Int.floor_eq_iff.mpr
  constructor
  · rw [show (((36 : ℤ)) : ℝ) = 36 by norm_num, le_div_iff hpos]
    linarith
  · rw [show (((36 : ℤ)) : ℝ) + 1 = 37 by norm_num, div_lt_iff hpos]
    linarith

/-- `nl` evaluates to 36 at any latitude in `[0, 87)` whose cosine lies in
the merged C6 interval. -/
theorem nl_eq_36 (lat q : ℝ) (h0 : 0 ≤ lat) (h87 : lat < 87)
    (hq : Real.pi / 180 * lat = q * Real.pi)
    (hc_lo : (0.6119221948297305 : ℝ) ≤ Real.cos (q * Real.pi))
    (hc_hi : Real.cos (q * Real.pi) ≤ 0.6121266103604399) :
    nl lat = 36 := by
  unfold nl
  rw [if_neg (by rw [abs_of_nonneg h0]; linarith)]
  rw [abs_of_nonneg h0, hq]
  rw [show Real.pi / (2 * 15) = (1 / 30 : ℝ) * Real.pi by ring]
  obtain ⟨hA_lo, hA_hi⟩ := cos_pi_div_30_bounds
  obtain ⟨harg_lo, harg_hi⟩ := arg_in_window hA_lo hA_hi hc_lo hc_hi
  have h1 : Real.cos ((1 / 18 : ℝ) * Real.pi) ≤
      1 - (1 - Real.cos ((1 / 30 : ℝ) * Real.pi)) / Real.cos (q * Real.pi) ^ 2 :=
    le_trans (le_trans cos_pi_div_18_bounds.2 (by norm_num)) harg_lo
  have h2 : 1 - (1 - Real.cos ((1 / 30 : ℝ) * Real.pi)) /
        Real.cos (q * Real.pi) ^ 2 < Real.cos ((2 / 37 : ℝ) * Real.pi) :=
    lt_of_le_of_lt harg_hi
      (lt_of_lt_of_le (by norm_num) cos_two_pi_div_37_bounds.1)
  rw [floor_arccos_36 h1 h2]
  norm_num

theorem nl_latE36 : nl (428091 / 8192 : ℝ) = 36 :=
  nl_eq_36 _ (142697 / 491520) (by norm_num) (by norm_num) (by ring)
    (le_trans (by norm_num) cos_qE_bounds.1) cos_qE_bounds.2

theorem nl_latO36 : nl (25261515 / 483328 : ℝ) = 36 :=
  nl_eq_36 _ (561367 / 1933312) (by norm_num) (by norm_num) (by ring)
    cos_qO_bounds.1 (le_trans cos_qO_bounds.2 (by norm_num))

theorem cprJ_C6 : cprJ 93000 74158 = 8 := by
  unfold cprJ cprMax
  norm_num

theorem cprLatCandE_C6 : cprLatCandE 93000 74158 = 428091 / 8192 := by
  simp only [cprLatCandE, cprMax, cprJ_C6, modulo]
  norm_num

theorem cprLatCandO_C6 : cprLatCandO 93000 74158 = 25261515 / 483328 := by
  simp only [cprLatCandO, cprMax, cprJ_C6, modulo]
  norm_num

theorem nl_candE_C6 : nl (cprLatCandE 93000 74158) = 36 := by
  rw [cprLatCandE_C6]
  exact nl_latE36

theorem nl_candO_C6 : nl (cprLatCandO 93000 74158) = 36 := by
  rw [cprLatCandO_C6]
  exact nl_latO36

theorem globalDecode_C6 :
    globalDecode 93000 51372 74158 50194 1 0 =
      some (26128601 / 500000, 3919373 / 1000000) := by
  simp only [globalDecode, MAX_PAIR_AGE, cprMax]
  rw [if_neg (by rw [show (1 : ℝ) - 0 = 1 by ring, abs_one]; norm_num)]
  rw [if_neg (by rw [nl_candE_C6, nl_candO_C6]; exact fun hc => hc rfl)]
  rw [if_pos (by norm_num : (0 : ℝ) ≤ 1)]
  rw [nl_candE_C6, cprLatCandE_C6]
  simp only [modulo]
  norm_num [round6, roundHalfAway]

/-- C6: the even CPR pair (93000, 51372) at t=1.0 with the odd pair
(74158, 50194) at t=0.0 decodes to latitude ≈ 52.2572 and longitude
≈ 3.9194 (exactly (52.257202, 3.919373)); the same values with
timestamps (11.0, 0.0) exceed the 10-second window and decode to
nothing. -/
theorem C6_concrete_global_decode :
    (∃ lat lon, globalDecode 93000 51372 74158 50194 1 0 = some (lat, lon) ∧
      |lat - 52.2572| ≤ 0.001 ∧ |lon - 3.9194| ≤ 0.001) ∧
    globalDecode 93000 51372 74158 50194 11 0 = none := by
  constructor
  · refine ⟨26128601 / 500000, 3919373 / 1000000, globalDecode_C6, ?_, ?_⟩
    · exact abs_sub_le_iff.mpr ⟨by norm_num, by norm_num⟩
    · exact abs_sub_le_iff.mpr ⟨by norm_num, by norm_num⟩
  · simp only [globalDecode, MAX_PAIR_AGE]
    rw [if_pos]
    rw [show (11 : ℝ) - 0 = 11 by ring,
      abs_of_nonneg (by norm_num : (0 : ℝ) ≤ 11)]
    norm_num

end Adsb
